import Mathlib

/-!
# CEP weather pipeline: Gateway (service A) and Orchestrator (service B)

Shallow embedding of `service_a/main.go`, `service_b/main.go` and
`service_b/model/models.go`, together with the parts of the Go standard
library and of the OpenTelemetry SDK the two handlers call.

Conventions
* A Go `string` / body is a `List Char`: the text is valid UTF-8 (what
  `encoding/json` produces for every decoded string; a body byte that is not
  valid UTF-8 is either a syntax error or is replaced by U+FFFD inside a string
  literal, so every body behaves like some valid UTF-8 body).
* A Go `error` value is `Option GoError`, `none` being `nil`.
* `http.ResponseWriter` is a recorder of the status passed to `WriteHeader`
  and of the bytes written; `WriteHeader` panics on a status that does not
  have three digits, and then nothing is recorded.
* Outbound HTTP calls and started spans are recorded in order. Attributes
  and errors set on a span are not recorded: they never reach the response
  nor decide a branch.
-/

namespace Go

/-- Go string holding valid UTF-8, as its sequence of code points. -/
abbrev GoString := List Char

/-- Byte length of a string, the builtin `len`. -/
def len (s : GoString) : Nat := (s.map Char.utf8Size).sum

/-- Go `*url.Error`: the only kind of error `http.Get` and `http.Client.Do`
return. -/
structure URLError where
  Op : GoString
  URL : GoString
  Err : GoString
  deriving DecidableEq, Repr

/-- Non-nil error values the handlers can observe. -/
inductive GoError where
  /-- Transport failure of an HTTP client call. -/
  | url (e : URLError)
  /-- Any error of `(*json.Decoder).Decode`: `*json.SyntaxError`,
  `*json.UnmarshalTypeError`, `io.EOF`, `io.ErrUnexpectedEOF`. -/
  | decodeError
  /-- The sentinel `http.ErrNoLocation`. -/
  | ErrNoLocation
  deriving DecidableEq, Repr

deriving instance DecidableEq for Except

/-! ## package unicode / strings -/

/-- Go `unicode.IsSpace`: the Latin-1 switch, then the `White_Space` table. -/
def unicodeIsSpace (r : Char) : Bool :=
  let n := r.toNat
  if n ≤ 0xFF then
    n == 0x09 || n == 0x0A || n == 0x0B || n == 0x0C || n == 0x0D || n == 0x20 ||
      n == 0x85 || n == 0xA0
  else
    n == 0x1680 || (0x2000 ≤ n && n ≤ 0x200A) || n == 0x2028 || n == 0x2029 ||
      n == 0x202F || n == 0x205F || n == 0x3000

/-- Go `strings.TrimSpace`: all leading and trailing white space removed. -/
def TrimSpace (s : GoString) : GoString :=
  ((s.dropWhile unicodeIsSpace).reverse.dropWhile unicodeIsSpace).reverse

/-! ## package regexp, for the one pattern the handlers compile -/

/-- The class `\d` of Go's RE2 syntax: the ASCII digits only. -/
def isDigit (c : Char) : Bool := 48 ≤ c.toNat && c.toNat ≤ 57

/-- Matches `\d{n}$` at the start of `s`: `n` digits, then end of text
(no multi-line flag, so `$` is the end of the text only). -/
def matchDigitsThenEnd : Nat → GoString → Bool
  | 0, [] => true
  | 0, _ :: _ => false
  | _ + 1, [] => false
  | n + 1, c :: cs => isDigit c && matchDigitsThenEnd n cs

/-- The call ``regexp.MustCompile(`^\d{8}$`).MatchString(s)``. -/
def cepPatternMatchString (s : GoString) : Bool := matchDigitsThenEnd 8 s

/-! ## package net/url -/

/-- UTF-8 encoding of a code point, as byte values. -/
def utf8Bytes (c : Char) : List Nat :=
  let n := c.toNat
  if n < 0x80 then [n]
  else if n < 0x800 then [0xC0 + n / 64, 0x80 + n % 64]
  else if n < 0x10000 then [0xE0 + n / 4096, 0x80 + n / 64 % 64, 0x80 + n % 64]
  else [0xF0 + n / 262144, 0x80 + n / 4096 % 64, 0x80 + n / 64 % 64, 0x80 + n % 64]

def upperHexDigit (n : Nat) : Char := "0123456789ABCDEF".toList.getD n '0'

def lowerHexDigit (n : Nat) : Char := "0123456789abcdef".toList.getD n '0'

/-- Percent-escape of one byte: `%XX`. -/
def percentByte (b : Nat) : GoString := ['%', upperHexDigit (b / 16), upperHexDigit (b % 16)]

/-- Letters, digits and `-_.~` are the bytes `url.QueryEscape` leaves alone. -/
def isUnreserved (c : Char) : Bool :=
  let n := c.toNat
  (65 ≤ n && n ≤ 90) || (97 ≤ n && n ≤ 122) || (48 ≤ n && n ≤ 57) ||
    c == '-' || c == '_' || c == '.' || c == '~'

/-- Go `url.QueryEscape`. -/
def QueryEscape : GoString → GoString
  | [] => []
  | c :: cs =>
    (if isUnreserved c then [c]
     else if c == ' ' then ['+']
     else ((utf8Bytes c).map percentByte).flatten) ++ QueryEscape cs

/-! ## package encoding/json: encoding of strings -/

/-- Escaping of one code point by the JSON encoder (HTML escaping on, as
`json.Marshal` and `json.NewEncoder` have it by default). -/
def escapeRune (c : Char) : GoString :=
  let n := c.toNat
  if c == '"' then ['\\', '"']
  else if c == '\\' then ['\\', '\\']
  else if n == 0x08 then ['\\', 'b']
  else if n == 0x0C then ['\\', 'f']
  else if n == 0x0A then ['\\', 'n']
  else if n == 0x0D then ['\\', 'r']
  else if n == 0x09 then ['\\', 't']
  else if n < 0x20 || c == '<' || c == '>' || c == '&' then
    ['\\', 'u', '0', '0', lowerHexDigit (n / 16), lowerHexDigit (n % 16)]
  else if n == 0x2028 then "\\u2028".toList
  else if n == 0x2029 then "\\u2029".toList
  else [c]

def escapeString : GoString → GoString
  | [] => []
  | c :: cs => escapeRune c ++ escapeString cs

/-- JSON string literal for `s`. -/
def jsonQuote (s : GoString) : GoString := '"' :: (escapeString s ++ ['"'])

/-- Bytes written by `json.NewEncoder(w).Encode(map[string]string{"message": m})`:
the one-key object followed by a newline. -/
def encodeMessage (m : GoString) : GoString :=
  "\x7b\"message\":".toList ++ jsonQuote m ++ "\x7d\n".toList

/-! ## package encoding/json: decoding -/

/-- A syntactically valid JSON value; a number keeps its literal text. -/
inductive JSON where
  | null
  | bool (b : Bool)
  | number (lit : GoString)
  | string (s : GoString)
  | array (elems : List JSON)
  | object (members : List (GoString × JSON))

/-- The scanner's `isSpace`. -/
def isSpace (c : Char) : Bool := c == ' ' || c == '\t' || c == '\r' || c == '\n'

def skipSpace (s : GoString) : GoString := s.dropWhile isSpace

def hexVal (c : Char) : Option Nat :=
  let n := c.toNat
  if 48 ≤ n && n ≤ 57 then some (n - 48)
  else if 97 ≤ n && n ≤ 102 then some (n - 87)
  else if 65 ≤ n && n ≤ 70 then some (n - 55)
  else none

/-- Go `getu4`: the code unit of a leading `\uXXXX`, if there is one. -/
def getu4 : GoString → Option Nat
  | '\\' :: 'u' :: a :: b :: c :: d :: _ =>
    match hexVal a, hexVal b, hexVal c, hexVal d with
    | some a, some b, some c, some d => some (((a * 16 + b) * 16 + c) * 16 + d)
    | _, _, _, _ => none
  | _ => none

def replacementChar : Char := Char.ofNat 0xFFFD

/-- Go `utf16.DecodeRune` on a code unit and the optional following one. -/
def utf16DecodeRune (r1 : Nat) (r2 : Option Nat) : Char :=
  match r2 with
  | some r2 =>
    if 0xD800 ≤ r1 && r1 < 0xDC00 && 0xDC00 ≤ r2 && r2 < 0xE000 then
      Char.ofNat ((r1 - 0xD800) * 1024 + (r2 - 0xDC00) + 0x10000)
    else replacementChar
  | none => replacementChar

def consChar (c : Char) : Option (GoString × GoString) → Option (GoString × GoString)
  | some (s, rest) => some (c :: s, rest)
  | none => none

/-- The character a one-letter escape denotes. -/
def simpleEscape (c : Char) : Option Char :=
  if c == '"' then some '"'
  else if c == '\\' then some '\\'
  else if c == '/' then some '/'
  else if c == 'b' then some (Char.ofNat 0x08)
  else if c == 'f' then some (Char.ofNat 0x0C)
  else if c == 'n' then some (Char.ofNat 0x0A)
  else if c == 'r' then some (Char.ofNat 0x0D)
  else if c == 't' then some (Char.ofNat 0x09)
  else none

/-- The escape that starts with the character `c`, `r` following it. -/
def escapeAt (c : Char) (r : GoString) : Option (Char × GoString) :=
  if c == 'u' then
    match getu4 ('\\' :: c :: r) with
    | none => none
    | some rr =>
      if 0xD800 ≤ rr && rr < 0xE000 then
        if utf16DecodeRune rr (getu4 (r.drop 4)) != replacementChar then
          some (utf16DecodeRune rr (getu4 (r.drop 4)), r.drop 10)
        else some (replacementChar, r.drop 4)
      else some (Char.ofNat rr, r.drop 4)
  else
    match simpleEscape c with
    | some d => some (d, r)
    | none => none

/-- What follows a backslash inside a string literal: the character the
escape denotes and the input after the escape. A `\uXXXX` that is half of a
surrogate pair takes the other half with it when that one follows; a lone
half becomes U+FFFD. -/
def scanEscape (rest : GoString) : Option (Char × GoString) :=
  match rest with
  | [] => none
  | c :: r => escapeAt c r

/-- Body of a string literal, after the opening quote: the unquoted text and
the input after the closing quote. `none` is a syntax error (control
character, bad escape, or end of input inside the literal). Every step
consumes input, so a fuel above the length of the input is never used up. -/
def scanString : Nat → GoString → Option (GoString × GoString)
  | 0, _ => none
  | _ + 1, [] => none
  | fuel + 1, c :: rest =>
    if c == '"' then some ([], rest)
    else if c == '\\' then
      match scanEscape rest with
      | some (d, r) => consChar d (scanString fuel r)
      | none => none
    else if c.toNat < 0x20 then none
    else consChar c (scanString fuel rest)

/-- A leading `+` or `-`, split off. -/
def optionalSign (s : GoString) : GoString × GoString :=
  match s with
  | '+' :: r => (['+'], r)
  | '-' :: r => (['-'], r)
  | _ => ([], s)

/-- A leading `-`, split off. -/
def optionalMinus (s : GoString) : GoString × GoString :=
  match s with
  | '-' :: r => (['-'], r)
  | _ => ([], s)

/-- Exponent part of a number literal, `lit` being the text read so far. -/
def scanExponent (lit : GoString) (inp : GoString) : Option (GoString × GoString) :=
  match inp with
  | e :: r =>
    if e == 'e' || e == 'E' then
      let signed := optionalSign r
      let ds := signed.2.span isDigit
      if ds.1.isEmpty then none else some (lit ++ e :: signed.1 ++ ds.1, ds.2)
    else some (lit, inp)
  | [] => some (lit, inp)

/-- Fraction part of a number literal, then the exponent. -/
def scanFraction (lit : GoString) (inp : GoString) : Option (GoString × GoString) :=
  match inp with
  | '.' :: r =>
    let ds := r.span isDigit
    if ds.1.isEmpty then none else scanExponent (lit ++ '.' :: ds.1) ds.2
  | _ => scanExponent lit inp

/-- Number literal: `-? (0 | [1-9][0-9]*) (. [0-9]+)? ([eE] [+-]? [0-9]+)?`. -/
def scanNumber (inp : GoString) : Option (GoString × GoString) :=
  let signed := optionalMinus inp
  match signed.2 with
  | [] => none
  | c :: r =>
    if c == '0' then scanFraction (signed.1 ++ ['0']) r
    else if isDigit c then
      let ds := r.span isDigit
      scanFraction (signed.1 ++ c :: ds.1) ds.2
    else none

/-- The scanner's `maxNestingDepth`. -/
def maxNestingDepth : Nat := 10000

/-- Elements of a non-empty array, the input standing at the first element;
`value` reads one value. Every round consumes a comma, so a fuel above the
length of the input is never used up. -/
def scanElements (value : GoString → Option (JSON × GoString)) :
    Nat → GoString → Option (List JSON × GoString)
  | 0, _ => none
  | fuel + 1, inp =>
    match value inp with
    | none => none
    | some (v, r1) =>
      match skipSpace r1 with
      | ',' :: r2 =>
        match scanElements value fuel r2 with
        | some (es, r3) => some (v :: es, r3)
        | none => none
      | ']' :: r2 => some ([v], r2)
      | _ => none

/-- Members of a non-empty object, the input standing at the first key;
`value` reads one value. Every round consumes a key, so a fuel above the
length of the input is never used up. -/
def scanMembers (value : GoString → Option (JSON × GoString)) :
    Nat → GoString → Option (List (GoString × JSON) × GoString)
  | 0, _ => none
  | _ + 1, [] => none
  | fuel + 1, c :: r =>
    if c == '"' then
      match scanString (r.length + 1) r with
      | none => none
      | some (key, r1) =>
        match skipSpace r1 with
        | ':' :: r2 =>
          match value r2 with
          | none => none
          | some (v, r3) =>
            match skipSpace r3 with
            | ',' :: r4 =>
              match scanMembers value fuel (skipSpace r4) with
              | some (ms, r5) => some ((key, v) :: ms, r5)
              | none => none
            | '}' :: r4 => some ([(key, v)], r4)
            | _ => none
        | _ => none
    else none

/-- One JSON value at the start of the input (after white space) and the
input that follows it. `budget` is one more than the number of arrays and
objects that may still be opened: the scanner refuses to open one when
`maxNestingDepth` are open. -/
def parseValue : Nat → GoString → Option (JSON × GoString)
  | 0, _ => none
  | budget + 1, inp =>
    match skipSpace inp with
    | [] => none
    | c :: r =>
      if c == '{' then
        if budget = 0 then none
        else
          match skipSpace r with
          | '}' :: r1 => some (JSON.object [], r1)
          | r1 =>
            match scanMembers (fun s => parseValue budget s) (r1.length + 1) r1 with
            | some (ms, r2) => some (JSON.object ms, r2)
            | none => none
      else if c == '[' then
        if budget = 0 then none
        else
          match skipSpace r with
          | ']' :: r1 => some (JSON.array [], r1)
          | r1 =>
            match scanElements (fun s => parseValue budget s) (r1.length + 1) r1 with
            | some (es, r2) => some (JSON.array es, r2)
            | none => none
      else if c == '"' then
        match scanString (r.length + 1) r with
        | some (s, r1) => some (JSON.string s, r1)
        | none => none
      else if c == '-' || isDigit c then
        match scanNumber (c :: r) with
        | some (lit, r1) => some (JSON.number lit, r1)
        | none => none
      else
        match c :: r with
        | 't' :: 'r' :: 'u' :: 'e' :: r1 => some (JSON.bool true, r1)
        | 'f' :: 'a' :: 'l' :: 's' :: 'e' :: r1 => some (JSON.bool false, r1)
        | 'n' :: 'u' :: 'l' :: 'l' :: r1 => some (JSON.null, r1)
        | _ => none

/-- First JSON value of a body, as `(*json.Decoder).Decode` reads it: leading
white space skipped, what follows the value left unread. -/
def readValue (body : GoString) : Option JSON :=
  match parseValue (maxNestingDepth + 1) body with
  | some (v, _) => some v
  | none => none

/-- ASCII upper-casing, the part of the decoder's `foldName` that applies to
field names without `k` or `s` (the only letters with a non-ASCII fold
partner). -/
def foldRune (c : Char) : Char :=
  if 97 ≤ c.toNat && c.toNat ≤ 122 then Char.ofNat (c.toNat - 32) else c

/-- Whether the object key `key` selects the struct field tagged `name`:
exact match, else match under case folding. -/
def keyMatches (name key : GoString) : Bool :=
  key == name || key.map foldRune == name.map foldRune

/-- Store of a JSON value into a `string` field holding `cur`: a string is
stored, `null` leaves the field, anything else is an `UnmarshalTypeError`. -/
def storeString (cur : GoString) : JSON → Option GoString
  | JSON.string s => some s
  | JSON.null => some cur
  | _ => none

/-! ## package net/http -/

/-- Header map, keys in canonical form. -/
abbrev Header := List (GoString × GoString)

/-- Go `Header.Set`: the value replaces whatever the key held. -/
def Header.Set (h : Header) (key value : GoString) : Header :=
  h.filter (fun kv => kv.1 != key) ++ [(key, value)]

/-- Go `Header.Get`: the first value of the key, empty when absent. -/
def Header.Get (h : Header) (key : GoString) : GoString :=
  match h.find? (fun kv => kv.1 == key) with
  | some kv => kv.2
  | none => []

/-- An HTTP request: the one a handler serves or the one a client sends. -/
structure Request where
  Method : GoString
  URL : GoString
  Header : Header
  Body : GoString
  deriving DecidableEq, Repr

/-- Status and body: of a `*http.Response` a client call returned, or
recorded from what a handler passed to `WriteHeader` and wrote to `w`. -/
structure Response where
  StatusCode : Nat
  Body : GoString
  deriving DecidableEq, Repr

/-- Go `checkWriteHeaderCode`, run by every `WriteHeader`: a code below 100 or
above 999 makes the call panic. `true` is "the code passes". -/
def checkWriteHeaderCode (code : Nat) : Bool := 100 ≤ code && code ≤ 999

end Go

/-! ## OpenTelemetry: span contexts, the SDK tracer, the W3C propagator -/

namespace Otel
open Go

structure SpanContext where
  TraceID : Nat
  SpanID : Nat
  Sampled : Bool
  deriving DecidableEq, Repr

/-- Go `SpanContext.IsValid`: non-zero trace id and span id. -/
def SpanContext.IsValid (sc : SpanContext) : Bool := sc.TraceID != 0 && sc.SpanID != 0

/-- A `context.Context`, as far as tracing reads it: the span context it
carries (the zero one when it carries no span). -/
structure Context where
  span : SpanContext
  deriving DecidableEq, Repr

/-- Context of a request served by a bare `http.HandleFunc` handler: the
server derives it from `context.Background()`, it carries no span. -/
def Context.ofServer : Context := ⟨⟨0, 0, false⟩⟩

/-- A span started by the SDK tracer. -/
structure Span where
  Name : GoString
  sc : SpanContext
  parent : SpanContext
  deriving DecidableEq, Repr

/-- What a handler run leaves behind besides its response: the outbound HTTP
calls in order, the spans started in order, and how many ids were drawn from
the process's id generator. -/
structure Effects where
  calls : List Request
  spans : List Span
  drawn : Nat
  deriving DecidableEq, Repr

def Effects.none : Effects := ⟨[], [], 0⟩

def Effects.call (s : Effects) (req : Request) : Effects := { s with calls := s.calls ++ [req] }

/-- Go `tracer.Start(ctx, name)` of the SDK tracer with the default sampler
(`ParentBased(AlwaysSample)`): a valid span context in `ctx` becomes the parent
and gives its trace id; otherwise the span is a root with a fresh trace id.
`ids n` is the n-th id the process's generator yields. -/
def Start (ids : Nat → Nat) (ctx : Context) (name : GoString) (s : Effects) : Context × Effects :=
  let psc := ctx.span
  if psc.IsValid then
    let sc : SpanContext := ⟨psc.TraceID, ids s.drawn, psc.Sampled⟩
    (⟨sc⟩, { s with spans := s.spans ++ [⟨name, sc, psc⟩], drawn := s.drawn + 1 })
  else
    let sc : SpanContext := ⟨ids s.drawn, ids (s.drawn + 1), true⟩
    (⟨sc⟩, { s with spans := s.spans ++ [⟨name, sc, psc⟩], drawn := s.drawn + 2 })

/-- Lower-case hexadecimal digits of `n`, most significant first, `width` of them. -/
def hexPadded : Nat → Nat → GoString
  | 0, _ => []
  | width + 1, n => hexPadded width (n / 16) ++ [lowerHexDigit (n % 16)]

/-- Value of the `traceparent` header for a span context. -/
def traceparent (sc : SpanContext) : GoString :=
  "00-".toList ++ hexPadded 32 sc.TraceID ++ ['-'] ++ hexPadded 16 sc.SpanID ++
    (if sc.Sampled then "-01".toList else "-00".toList)

/-- Go `propagator.Inject(ctx, propagation.HeaderCarrier(h))` for the composite
of `TraceContext` and `Baggage`: a valid span context is written as
`traceparent`; the context carries no trace state and no baggage. -/
def Inject (ctx : Context) (h : Header) : Header :=
  if ctx.span.IsValid then h.Set "Traceparent".toList (traceparent ctx.span) else h

/-- A handler run: the recorded response and the effects. -/
structure Handled where
  w : Response
  fx : Effects
  deriving DecidableEq, Repr

/-- A handler run that may end in a panic of `WriteHeader`: `w` is `none`
then, the server recovers the panic and closes the connection, no response
having been written. -/
structure HandledOrPanic where
  w : Option Response
  fx : Effects
  deriving DecidableEq, Repr

end Otel

/-! ## Decoding into structs -/

namespace Go

/-- Walk of a JSON value into a struct holding `cur`: the members of an
object are applied in order by `setField`, `null` leaves the struct, any other
value is an `UnmarshalTypeError`. `none` is "Decode returns an error" (the
decoder saves the first type error and keeps going; the handlers only test
the error, so the walk stops at it). -/
def unmarshalStruct {α : Type} (setField : α → GoString → JSON → Option α) (cur : α) :
    JSON → Option α
  | JSON.object ms => ms.foldlM (fun v kv => setField v kv.1 kv.2) cur
  | JSON.null => some cur
  | _ => none

/-- The call `json.NewDecoder(body).Decode(&v)` for a struct `v` holding `cur`. -/
def decodeStruct {α : Type} (setField : α → GoString → JSON → Option α) (cur : α)
    (body : GoString) : Except GoError α :=
  match readValue body with
  | none => Except.error GoError.decodeError
  | some j =>
    match unmarshalStruct setField cur j with
    | some v => Except.ok v
    | none => Except.error GoError.decodeError

/-- The float64 operations the Orchestrator uses, over a carrier `F`:
the zero value, the constants `1.8`, `32` and `273` converted to float64,
`*` and `+`, `strconv.ParseFloat(lit, 64)` on a JSON number literal (`none`
when out of range), and the JSON encoder's rendering of a float64 (`none` for
NaN and the infinities, which the encoder refuses). -/
structure Float64Ops (F : Type) where
  zero : F
  lit_1_8 : F
  lit_32 : F
  lit_273 : F
  mul : F → F → F
  add : F → F → F
  ParseFloat : GoString → Option F
  encode : F → Option GoString

/-- Store of a JSON value into a `float64` field holding `cur`. -/
def storeFloat {F : Type} (ops : Float64Ops F) (cur : F) : JSON → Option F
  | JSON.number lit => ops.ParseFloat lit
  | JSON.null => some cur
  | _ => none

end Go

/-! ## Service A: the Gateway -/

namespace ServiceA
open Go Otel

namespace model

/-- Struct `CEPRequest` of `service_a/model/models.go`. -/
structure CEPRequest where
  CEP : GoString
  deriving DecidableEq, Repr

def CEPRequest.setField (v : CEPRequest) (key : GoString) (x : JSON) : Option CEPRequest :=
  if keyMatches "cep".toList key then (storeString v.CEP x).map (fun s => { v with CEP := s })
  else some v

/-- The call `json.NewDecoder(r.Body).Decode(&reqBody)` on a zero `reqBody`. -/
def CEPRequest.Decode (body : GoString) : Except GoError CEPRequest :=
  decodeStruct CEPRequest.setField ⟨[]⟩ body

/-- The call `json.Marshal(requestBody)`; it cannot fail on this struct. -/
def CEPRequest.Marshal (v : CEPRequest) : Except GoError GoString :=
  Except.ok ("\x7b\"cep\":".toList ++ jsonQuote v.CEP ++ "\x7d".toList)

end model

/-- Address of the Orchestrator's endpoint. -/
def serviceBURL : GoString := "http://service-b:8081/weather".toList

/-- The call `http.NewRequestWithContext(ctx, "POST", url, bytes.NewBuffer(body))`;
with a valid method and a constant, well-formed URL it cannot fail. -/
def NewRequestWithContext (method url body : GoString) : Except GoError Request :=
  Except.ok ⟨method, url, [], body⟩

/-- Handler `CEPValidationHandler` of `service_a/main.go`. `ids` is the
process's span id generator, `Do` is `http.DefaultClient.Do`, `r` the inbound
request. -/
def CEPValidationHandler (ids : Nat → Nat) (Do : Request → Except URLError Response)
    (r : Request) : HandledOrPanic :=
  let ctx := Context.ofServer
  let st := Start ids ctx "CEPValidationHandler".toList Effects.none
  let ctx := st.1
  let s := st.2
  -- 1. decode the input
  match model.CEPRequest.Decode r.Body with
  | Except.error _ => ⟨some ⟨400, encodeMessage "invalid request body".toList⟩, s⟩
  | Except.ok reqBody =>
    -- 2. validate the input
    let cep := TrimSpace reqBody.CEP
    if len cep != 8 || !cepPatternMatchString cep then
      ⟨some ⟨422, encodeMessage "invalid zipcode".toList⟩, s⟩
    else
      -- 3. call service B, propagating the context
      let st := Start ids ctx "call-service-b".toList s
      let ctx := st.1
      let s := st.2
      match model.CEPRequest.Marshal ⟨cep⟩ with
      | Except.error _ => ⟨some ⟨500, encodeMessage "internal server error".toList⟩, s⟩
      | Except.ok jsonBody =>
        match NewRequestWithContext "POST".toList serviceBURL jsonBody with
        | Except.error _ => ⟨some ⟨500, encodeMessage "internal server error".toList⟩, s⟩
        | Except.ok req =>
          let req := { req with Header := req.Header.Set "Content-Type".toList "application/json".toList }
          let req := { req with Header := Inject ctx req.Header }
          let s := s.call req
          match Do req with
          | Except.error _ =>
            ⟨some ⟨500, encodeMessage "could not connect to service B".toList⟩, s⟩
          | Except.ok resp =>
            -- 4. relay the response: `w.WriteHeader(resp.StatusCode)` comes first
            if !checkWriteHeaderCode resp.StatusCode then ⟨none, s⟩
            else if resp.StatusCode != 200 then ⟨some ⟨resp.StatusCode, resp.Body⟩, s⟩
            else ⟨some ⟨resp.StatusCode, resp.Body⟩, s⟩

end ServiceA

/-! ## Service B: the Orchestrator -/

namespace ServiceB
open Go Otel

namespace model

/-- Struct `CEPRequest` of `service_b/model/models.go`. -/
structure CEPRequest where
  CEP : GoString
  deriving DecidableEq, Repr

def CEPRequest.setField (v : CEPRequest) (key : GoString) (x : JSON) : Option CEPRequest :=
  if keyMatches "cep".toList key then (storeString v.CEP x).map (fun s => { v with CEP := s })
  else some v

/-- The call `json.NewDecoder(r.Body).Decode(&reqBody)` on a zero `reqBody`. -/
def CEPRequest.Decode (body : GoString) : Except GoError CEPRequest :=
  decodeStruct CEPRequest.setField ⟨[]⟩ body

/-- Struct `ViaCEPResponse`. -/
structure ViaCEPResponse where
  CEP : GoString
  Localidade : GoString
  Erro : GoString
  deriving DecidableEq, Repr

def ViaCEPResponse.setField (v : ViaCEPResponse) (key : GoString) (x : JSON) :
    Option ViaCEPResponse :=
  if keyMatches "cep".toList key then (storeString v.CEP x).map (fun s => { v with CEP := s })
  else if keyMatches "localidade".toList key then
    (storeString v.Localidade x).map (fun s => { v with Localidade := s })
  else if keyMatches "erro".toList key then
    (storeString v.Erro x).map (fun s => { v with Erro := s })
  else some v

/-- The call `json.NewDecoder(resp.Body).Decode(&data)` on a zero `data`. -/
def ViaCEPResponse.Decode (body : GoString) : Except GoError ViaCEPResponse :=
  decodeStruct ViaCEPResponse.setField ⟨[], [], []⟩ body

/-- The anonymous struct of the field `Current` of `WeatherAPIResponse`. -/
structure WeatherAPICurrent (F : Type) where
  TempC : F
  deriving DecidableEq

/-- Struct `WeatherAPIResponse`. -/
structure WeatherAPIResponse (F : Type) where
  Current : WeatherAPICurrent F
  deriving DecidableEq

def WeatherAPICurrent.setField {F : Type} (ops : Float64Ops F) (v : WeatherAPICurrent F)
    (key : GoString) (x : JSON) : Option (WeatherAPICurrent F) :=
  if keyMatches "temp_c".toList key then (storeFloat ops v.TempC x).map (fun t => { v with TempC := t })
  else some v

def WeatherAPIResponse.setField {F : Type} (ops : Float64Ops F) (v : WeatherAPIResponse F)
    (key : GoString) (x : JSON) : Option (WeatherAPIResponse F) :=
  if keyMatches "current".toList key then
    (unmarshalStruct (WeatherAPICurrent.setField ops) v.Current x).map
      (fun c => { v with Current := c })
  else some v

/-- The call `json.NewDecoder(resp.Body).Decode(&data)` on a zero `data`. -/
def WeatherAPIResponse.Decode {F : Type} (ops : Float64Ops F) (body : GoString) :
    Except GoError (WeatherAPIResponse F) :=
  decodeStruct (WeatherAPIResponse.setField ops) ⟨⟨ops.zero⟩⟩ body

/-- Struct `WeatherResponse`, the final payload. -/
structure WeatherResponse (F : Type) where
  City : GoString
  TempC : F
  TempF : F
  TempK : F

/-- Bytes written by `json.NewEncoder(w).Encode(respData)`: the object with
the keys `city`, `temp_C`, `temp_F`, `temp_K` and a newline; nothing when the
encoder refuses one of the floats. -/
def WeatherResponse.Encode {F : Type} (ops : Float64Ops F) (v : WeatherResponse F) : GoString :=
  match ops.encode v.TempC, ops.encode v.TempF, ops.encode v.TempK with
  | some c, some f, some k =>
    "\x7b\"city\":".toList ++ jsonQuote v.City ++ ",\"temp_C\":".toList ++ c ++
      ",\"temp_F\":".toList ++ f ++ ",\"temp_K\":".toList ++ k ++ "\x7d\n".toList
  | _, _, _ => []

/-- Struct `TemperatureConversion`. -/
structure TemperatureConversion (F : Type) where
  Celsius : F
  Fahrenheit : F
  Kelvin : F

/-- Method `ConvertCelsiusToFahrenheit`: `celsius*1.8 + 32`. -/
def TemperatureConversion.ConvertCelsiusToFahrenheit {F : Type} (ops : Float64Ops F)
    (_tc : TemperatureConversion F) (celsius : F) : F :=
  ops.add (ops.mul celsius ops.lit_1_8) ops.lit_32

/-- Method `ConvertCelsiusToKelvin`: `celsius + 273`. -/
def TemperatureConversion.ConvertCelsiusToKelvin {F : Type} (ops : Float64Ops F)
    (_tc : TemperatureConversion F) (celsius : F) : F :=
  ops.add celsius ops.lit_273

/-- Method `SetTemperatures`: the receiver after the three assignments. -/
def TemperatureConversion.SetTemperatures {F : Type} (ops : Float64Ops F)
    (tc : TemperatureConversion F) (celsius : F) : TemperatureConversion F :=
  let tc := { tc with Celsius := celsius }
  let tc := { tc with Fahrenheit := tc.ConvertCelsiusToFahrenheit ops celsius }
  let tc := { tc with Kelvin := tc.ConvertCelsiusToKelvin ops celsius }
  tc

end model

/-- What the Orchestrator's process reads from outside: `Get` is `http.Get`
(the postal-code provider and the weather provider behind it), `apiKey` is
`os.Getenv("WEATHER_API_KEY")`, `ids` the span id generator. -/
structure Env where
  Get : GoString → Except URLError Response
  apiKey : GoString
  ids : Nat → Nat

def viaCEPURL (cep : GoString) : GoString :=
  "http://viacep.com.br/ws/".toList ++ cep ++ "/json/".toList

def weatherURL (apiKey city : GoString) : GoString :=
  "http://api.weatherapi.com/v1/current.json?key=".toList ++ apiKey ++ "&q=".toList ++
    QueryEscape city

/-- Function `fetchCity`: the returned pair `(string, error)` and the effects. -/
def fetchCity (env : Env) (ctx : Context) (cep : GoString) (s : Effects) :
    (GoString × Option GoError) × Effects :=
  let s := (Start env.ids ctx "fetch-city-via-viacep".toList s).2
  let url := viaCEPURL cep
  let s := s.call ⟨"GET".toList, url, [], []⟩
  match env.Get url with
  | Except.error e => (([], some (GoError.url e)), s)
  | Except.ok resp =>
    -- past the check `err != nil`, the variable `err` is nil
    let err : Option GoError := none
    if resp.StatusCode != 200 then (([], err), s)
    else
      match model.ViaCEPResponse.Decode resp.Body with
      | Except.error e => (([], some e), s)
      | Except.ok data =>
        if data.Erro != [] then (([], some GoError.ErrNoLocation), s)
        else ((data.Localidade, none), s)

/-- Function `fetchWeather`: the returned pair `(float64, error)` and the effects. -/
def fetchWeather {F : Type} (ops : Float64Ops F) (env : Env) (ctx : Context) (city : GoString)
    (s : Effects) : (F × Option GoError) × Effects :=
  let s := (Start env.ids ctx "fetch-weather-api".toList s).2
  let apiKey := if env.apiKey == [] then "demo".toList else env.apiKey
  let url := weatherURL apiKey city
  let s := s.call ⟨"GET".toList, url, [], []⟩
  match env.Get url with
  | Except.error e => ((ops.zero, some (GoError.url e)), s)
  | Except.ok resp =>
    -- past the check `err != nil`, the variable `err` is nil
    let err : Option GoError := none
    if resp.StatusCode != 200 then ((ops.zero, err), s)
    else
      match model.WeatherAPIResponse.Decode ops resp.Body with
      | Except.error e => ((ops.zero, some e), s)
      | Except.ok data => ((data.Current.TempC, none), s)

/-- Handler `WeatherHandler` of `service_b/main.go`, registered bare with
`http.HandleFunc("/weather", WeatherHandler)`: the request context carries no
span and the inbound headers are never read. -/
def WeatherHandler {F : Type} (ops : Float64Ops F) (env : Env) (r : Request) : Handled :=
  let ctx := Context.ofServer
  let s := Effects.none
  -- 1. decode and validate
  match model.CEPRequest.Decode r.Body with
  | Except.error _ => ⟨⟨400, encodeMessage "invalid request body".toList⟩, s⟩
  | Except.ok reqBody =>
    let cep := TrimSpace reqBody.CEP
    if len cep != 8 || !cepPatternMatchString cep then
      ⟨⟨422, encodeMessage "invalid zipcode".toList⟩, s⟩
    else
      -- 2. city lookup
      let rc := fetchCity env ctx cep s
      let city := rc.1.1
      let err := rc.1.2
      let s := rc.2
      if err != none then
        if err == some GoError.ErrNoLocation then
          ⟨⟨404, encodeMessage "can not find zipcode".toList⟩, s⟩
        else
          ⟨⟨500, encodeMessage "internal server error during city lookup".toList⟩, s⟩
      else
        -- 3. weather lookup
        let rw := fetchWeather ops env ctx city s
        let tempC := rw.1.1
        let err := rw.1.2
        let s := rw.2
        if err != none then
          ⟨⟨500, encodeMessage "internal server error during weather lookup".toList⟩, s⟩
        else
          -- 4. conversions and response
          let s := (Start env.ids ctx "temperature-conversion".toList s).2
          let tempF := ops.add (ops.mul tempC ops.lit_1_8) ops.lit_32
          let tempK := ops.add tempC ops.lit_273
          let respData : model.WeatherResponse F := ⟨city, tempC, tempF, tempK⟩
          ⟨⟨200, respData.Encode ops⟩, s⟩

end ServiceB

/-! ## IEEE 754 binary64, for evaluating the handlers on concrete readings -/

namespace Binary64
open Go

/-- A binary64 value: `finite neg m e` is `(-1)^neg * m * 2^e` with
`m < 2^53`, `-1074 ≤ e ≤ 971`, and `2^52 ≤ m` unless `e = -1074`. -/
inductive Float64 where
  | finite (neg : Bool) (m : Nat) (e : Int)
  | inf (neg : Bool)
  | nan
  deriving DecidableEq, Repr

def bitLenAux : Nat → Nat → Nat
  | 0, _ => 0
  | fuel + 1, n => if n = 0 then 0 else bitLenAux fuel (n / 2) + 1

/-- Number of binary digits of `n`. -/
def bitLen (n : Nat) : Nat := bitLenAux n n

/-- The binary64 nearest to `(-1)^neg * p / q`, ties to even (`0 < q`). -/
def roundRatio (neg : Bool) (p q : Nat) : Float64 :=
  if p = 0 then Float64.finite neg 0 (-1074)
  else
    let L : Int := (bitLen p : Int) - (bitLen q : Int)
    -- `lg` is the integer part of the binary logarithm of `p / q`
    let lg : Int := if q * 2 ^ L.toNat ≤ p * 2 ^ (-L).toNat then L else L - 1
    let e : Int := max (lg - 52) (-1074)
    let P := p * 2 ^ (-e).toNat
    let Q := q * 2 ^ e.toNat
    let k := P / Q
    let rem := P % Q
    let m := if Q < 2 * rem || (2 * rem == Q && k % 2 == 1) then k + 1 else k
    let e1 : Int := if m = 2 ^ 53 then e + 1 else e
    let m1 : Nat := if m = 2 ^ 53 then 2 ^ 52 else m
    if 971 < e1 then Float64.inf neg else Float64.finite neg m1 e1

/-- The binary64 nearest to `(-1)^neg * m * 2^e`. -/
def roundDyadic (neg : Bool) (m : Nat) (e : Int) : Float64 :=
  roundRatio neg (m * 2 ^ e.toNat) (2 ^ (-e).toNat)

/-- Float64 multiplication. -/
def mul : Float64 → Float64 → Float64
  | Float64.finite a m1 e1, Float64.finite b m2 e2 => roundDyadic (a != b) (m1 * m2) (e1 + e2)
  | Float64.finite a m _, Float64.inf b => if m = 0 then Float64.nan else Float64.inf (a != b)
  | Float64.inf a, Float64.finite b m _ => if m = 0 then Float64.nan else Float64.inf (a != b)
  | Float64.inf a, Float64.inf b => Float64.inf (a != b)
  | _, _ => Float64.nan

def signed (neg : Bool) (n : Nat) : Int := if neg then -(n : Int) else (n : Int)

/-- Float64 addition. -/
def add : Float64 → Float64 → Float64
  | Float64.finite a m1 e1, Float64.finite b m2 e2 =>
    let e := min e1 e2
    let s := signed a (m1 * 2 ^ (e1 - e).toNat) + signed b (m2 * 2 ^ (e2 - e).toNat)
    if s = 0 then Float64.finite (a && b) 0 (-1074)
    else roundDyadic (decide (s < 0)) s.natAbs e
  | Float64.finite _ _ _, Float64.inf b => Float64.inf b
  | Float64.inf a, Float64.finite _ _ _ => Float64.inf a
  | Float64.inf a, Float64.inf b => if a == b then Float64.inf a else Float64.nan
  | _, _ => Float64.nan

/-- Value of a run of decimal digits. -/
def digitsValue (ds : GoString) : Nat := ds.foldl (fun acc c => acc * 10 + (c.toNat - 48)) 0

/-- Go `strconv.ParseFloat(lit, 64)` on a JSON number literal: the nearest
binary64, `none` when the value overflows (`ErrRange`). -/
def ParseFloat (lit : GoString) : Option Float64 :=
  let neg := lit.head? == some '-'
  let body := if neg then lit.drop 1 else lit
  let ip := body.span isDigit
  let fp : GoString × GoString :=
    match ip.2 with
    | '.' :: r => r.span isDigit
    | r => ([], r)
  let ex : Int :=
    match fp.2 with
    | _ :: '-' :: ds => -(digitsValue ds : Int)
    | _ :: '+' :: ds => (digitsValue ds : Int)
    | _ :: ds => (digitsValue ds : Int)
    | [] => 0
  let x : Int := ex - (fp.1.length : Int)
  match roundRatio neg (digitsValue (ip.1 ++ fp.1) * 10 ^ x.toNat) (10 ^ (-x).toNat) with
  | Float64.inf _ => none
  | v => some v

/-- Decimal digits of a natural number. -/
def natDigits : Nat → Nat → GoString
  | 0, _ => []
  | fuel + 1, n =>
    if n < 10 then [Char.ofNat (48 + n)]
    else natDigits fuel (n / 10) ++ [Char.ofNat (48 + n % 10)]

def decimal (n : Nat) : GoString := natDigits (n + 1) n

/-- Whether the decimal `d * 10^x` reads back as the positive float `m * 2^e`. -/
def readsBack (m : Nat) (e : Int) (d : Nat) (x : Int) : Bool :=
  roundRatio false (d * 10 ^ x.toNat) (10 ^ (-x).toNat) == Float64.finite false m e

/-- The two decimals with `n` digits around `m * 2^e`, nearest first, as
multiples of `10^x` where `x = k - n + 1` and `10^k ≤ m * 2^e < 10^(k+1)`. -/
def neighbours (m : Nat) (e : Int) (x : Int) : Nat × Nat :=
  let P := m * 2 ^ e.toNat * 10 ^ (-x).toNat
  let Q := 2 ^ (-e).toNat * 10 ^ x.toNat
  if 2 * (P % Q) ≤ Q then (P / Q, P / Q + 1) else (P / Q + 1, P / Q)

/-- The shortest decimal that reads back as `m * 2^e`, nearest first among
those of one length: `(d, x)` stands for `d * 10^x`. Tried with `n`, `n + 1`,
... digits; 17 digits always read back. -/
def shortest (m : Nat) (e : Int) (k : Int) : Nat → Nat → Nat × Int
  | 0, n => ((neighbours m e (k - (n : Int) + 1)).1, k - (n : Int) + 1)
  | fuel + 1, n =>
    let x : Int := k - (n : Int) + 1
    let c := neighbours m e x
    if readsBack m e c.1 x then (c.1, x)
    else if readsBack m e c.2 x then (c.2, x)
    else shortest m e k fuel (n + 1)

/-- The integer `k` with `10^k ≤ p / q < 10^(k+1)`, for positive `p` and `q`. -/
def decimalExponent (p q : Nat) : Int :=
  let d : Int := ((decimal p).length : Int) - ((decimal q).length : Int)
  if q * 10 ^ d.toNat ≤ p * 10 ^ (-d).toNat then d else d - 1

def stripZeros (ds : GoString) : GoString := (ds.reverse.dropWhile (fun c => c == '0')).reverse

/-- Layout of `strconv`'s format `f` at the shortest precision: the digits
`ds` with the decimal point after the first `dp` of them. -/
def formatF (ds : GoString) (dp : Int) : GoString :=
  let whole := if 0 < dp then ds.take dp.toNat ++ List.replicate (dp.toNat - ds.length) '0' else ['0']
  if dp < (ds.length : Int) then
    whole ++ '.' :: (List.replicate (-dp).toNat '0' ++ ds.drop dp.toNat)
  else whole

/-- Layout of `strconv`'s format `e` at the shortest precision, after the JSON
encoder has dropped the leading zero of a two-digit exponent. -/
def formatE (ds : GoString) (dp : Int) : GoString :=
  let mant := match ds with
    | [] => ['0']
    | [d] => [d]
    | d :: rest => d :: '.' :: rest
  let ex : Int := dp - 1
  mant ++ 'e' :: (if ex < 0 then '-' else '+') :: decimal ex.natAbs

/-- Whether `m1 * 2^e1 < m2 * 2^e2`. -/
def ltFinite (m1 : Nat) (e1 : Int) (m2 : Nat) (e2 : Int) : Bool :=
  m1 * 2 ^ (e1 - min e1 e2).toNat < m2 * 2 ^ (e2 - min e1 e2).toNat

/-- The JSON encoder's rendering of a float64: refused for NaN and the
infinities; otherwise the shortest decimal that reads back, in format `f`, or
in format `e` when the magnitude is below `1e-6` or at least `1e21`. -/
def encode : Float64 → Option GoString
  | Float64.finite neg m e =>
    let sign : GoString := if neg then ['-'] else []
    if m = 0 then some (sign ++ ['0'])
    else
      let k := decimalExponent (m * 2 ^ e.toNat) (2 ^ (-e).toNat)
      let s := shortest m e k 16 1
      let ds := stripZeros (decimal s.1)
      let dp : Int := ((decimal s.1).length : Int) + s.2
      let small := match roundRatio false 1 (10 ^ 6) with
        | Float64.finite _ m0 e0 => ltFinite m e m0 e0
        | _ => false
      let large := match roundRatio false (10 ^ 21) 1 with
        | Float64.finite _ m1 e1 => !ltFinite m e m1 e1
        | _ => false
      some (sign ++ (if small || large then formatE ds dp else formatF ds dp))
  | _ => none

/-- The float64 operations on binary64. -/
def ops : Float64Ops Float64 where
  zero := Float64.finite false 0 (-1074)
  lit_1_8 := roundRatio false 18 10
  lit_32 := roundRatio false 32 1
  lit_273 := roundRatio false 273 1
  mul := mul
  add := add
  ParseFloat := ParseFloat
  encode := encode

end Binary64

/-! ## The two services chained, and the specification's words -/

namespace Pipeline
open Go Otel

/-- The Gateway's `http.DefaultClient.Do` when the Orchestrator is reachable:
the request is served by `WeatherHandler` and its response comes back. -/
def orchestratorDo {F : Type} (ops : Float64Ops F) (env : ServiceB.Env) (req : Request) :
    Except URLError Response :=
  Except.ok (ServiceB.WeatherHandler ops env req).w

/-- A client whose every call either fails at the transport level or is
served by the Orchestrator. -/
def ReachesOrchestrator {F : Type} (ops : Float64Ops F) (env : ServiceB.Env)
    (Do : Request → Except URLError Response) : Prop :=
  ∀ req, (∃ e, Do req = Except.error e) ∨ Do req = orchestratorDo ops env req

end Pipeline

namespace Spec
open Go

/-- The specification's shape of a postal code: exactly 8 characters, every
one an ASCII decimal digit `0`..`9`. -/
def EightASCIIDigits (s : GoString) : Prop :=
  s.length = 8 ∧ ∀ c ∈ s, 48 ≤ c.toNat ∧ c.toNat ≤ 57

instance (s : GoString) : Decidable (EightASCIIDigits s) := by
  unfold EightASCIIDigits
  infer_instance

/-- The body of every validation failure. -/
def invalidZipcode : Response := ⟨422, "\x7b\"message\":\"invalid zipcode\"\x7d\n".toList⟩

end Spec

/-! ## Concrete environments -/

namespace Scenario
open Go Otel

/-- Inbound request carrying `body`. -/
def post (url : String) (body : String) : Request := ⟨"POST".toList, url.toList, [], body.toList⟩

/-- Providers that answer `viaCEP` for the postal code `01001000` and `weather`
for every weather query; anything else is unreachable. -/
def env (viaCEP weather : Except URLError Response) (ids : Nat → Nat) : ServiceB.Env where
  Get := fun url =>
    if url = ServiceB.viaCEPURL "01001000".toList then viaCEP
    else if "http://api.weatherapi.com/".toList.isPrefixOf url then weather
    else Except.error ⟨"Get".toList, url, "no such host".toList⟩
  apiKey := []
  ids := ids

def unreachable (op url : String) : Except URLError Response :=
  Except.error ⟨op.toList, url.toList, "connection refused".toList⟩

def saoPaulo : Except URLError Response :=
  Except.ok ⟨200, "\x7b\"cep\":\"01001-000\",\"localidade\":\"São Paulo\",\"uf\":\"SP\"\x7d".toList⟩

def notFound : Except URLError Response :=
  Except.ok ⟨200, "\x7b\"erro\":\"true\"\x7d".toList⟩

def twentyDegrees : Except URLError Response :=
  Except.ok ⟨200, "\x7b\"location\":\x7b\"name\":\"Sao Paulo\"\x7d,\"current\":\x7b\"temp_c\":20\x7d\x7d".toList⟩

def status (code : Nat) (body : String) : Except URLError Response := Except.ok ⟨code, body.toList⟩

/-- Id generators of the two processes: the Gateway draws 0xA1, 0xA2, ..., the
Orchestrator 0xB1, 0xB2, ... -/
def gatewayIds (n : Nat) : Nat := 0xA1 + n

def orchestratorIds (n : Nat) : Nat := 0xB1 + n

def ops : Float64Ops Binary64.Float64 := Binary64.ops

end Scenario

/-! ## Lemmas: digits, validation, trimming -/

namespace Go

theorem isDigit_iff (c : Char) : isDigit c = true ↔ 48 ≤ c.toNat ∧ c.toNat ≤ 57 := by
  simp [isDigit]

/-- A property of the ten ASCII digits holds of every character of class `\d`. -/
theorem digit_cases (P : Char → Prop) (h : ∀ n, n < 10 → P (Char.ofNat (48 + n)))
    (c : Char) (hc : isDigit c = true) : P c := by
  rw [isDigit_iff] at hc
  have h1 := h (c.toNat - 48) (by omega)
  have h2 : 48 + (c.toNat - 48) = c.toNat := by omega
  rw [h2, Char.ofNat_toNat] at h1
  exact h1

theorem utf8Size_digit (c : Char) (hc : isDigit c = true) : c.utf8Size = 1 := by
  revert c
  apply digit_cases
  intro n hn
  interval_cases n <;> rfl

theorem unicodeIsSpace_digit (c : Char) (hc : isDigit c = true) : unicodeIsSpace c = false := by
  revert c
  apply digit_cases
  intro n hn
  interval_cases n <;> rfl

theorem escapeRune_digit (c : Char) (hc : isDigit c = true) : escapeRune c = [c] := by
  revert c
  apply digit_cases
  intro n hn
  interval_cases n <;> rfl

theorem matchDigitsThenEnd_iff (n : Nat) (s : GoString) :
    matchDigitsThenEnd n s = true ↔ s.length = n ∧ ∀ c ∈ s, isDigit c = true := by
  induction n generalizing s with
  | zero => cases s <;> simp [matchDigitsThenEnd]
  | succ k ih =>
    cases s with
    | nil => simp [matchDigitsThenEnd]
    | cons c cs => simp [matchDigitsThenEnd, ih]; tauto

theorem len_digits (s : GoString) (h : ∀ c ∈ s, isDigit c = true) : len s = s.length := by
  induction s with
  | nil => rfl
  | cons c cs ih =>
    have hc := utf8Size_digit c (h c (by simp))
    have := ih (fun d hd => h d (by simp [hd]))
    simp only [len, List.map_cons, List.sum_cons, List.length_cons] at *
    omega

end Go

namespace Spec
open Go

theorem eightASCIIDigits_iff (s : GoString) :
    EightASCIIDigits s ↔ s.length = 8 ∧ ∀ c ∈ s, isDigit c = true := by
  simp [EightASCIIDigits, isDigit_iff]

/-- The check both handlers make, `len(cep) != 8 || !MatchString(cep)`, fails
exactly on the strings that are not 8 ASCII digits. -/
theorem check_iff (cep : GoString) :
    (len cep != 8 || !cepPatternMatchString cep) = true ↔ ¬ EightASCIIDigits cep := by
  rw [eightASCIIDigits_iff]
  constructor
  · intro h hd
    have h1 : cepPatternMatchString cep = true := (matchDigitsThenEnd_iff 8 cep).2 hd
    have h2 : len cep = 8 := by rw [len_digits cep hd.2]; exact hd.1
    simp [h1, h2] at h
  · intro h
    by_cases hm : cepPatternMatchString cep = true
    · exact absurd ((matchDigitsThenEnd_iff 8 cep).1 hm) h
    · simp [hm]

theorem check_false_iff (cep : GoString) :
    (len cep != 8 || !cepPatternMatchString cep) = false ↔ EightASCIIDigits cep := by
  have := check_iff cep
  constructor
  · intro h
    by_contra hn
    rw [this.2 hn] at h
    exact Bool.noConfusion h
  · intro h
    cases hb : (len cep != 8 || !cepPatternMatchString cep)
    · rfl
    · exact absurd h (this.1 hb)

end Spec

/-! ## Lemmas: the forwarded body -/

namespace Go

theorem dropWhile_unicodeIsSpace_digits (s : GoString) (h : ∀ c ∈ s, isDigit c = true) :
    s.dropWhile unicodeIsSpace = s := by
  cases s with
  | nil => rfl
  | cons c cs => simp [List.dropWhile, unicodeIsSpace_digit c (h c (by simp))]

/-- Trimming leaves a string of digits as it is. -/
theorem TrimSpace_digits (s : GoString) (h : ∀ c ∈ s, isDigit c = true) : TrimSpace s = s := by
  unfold TrimSpace
  rw [dropWhile_unicodeIsSpace_digits s h,
    dropWhile_unicodeIsSpace_digits s.reverse (fun c hc => h c (by simpa using hc)),
    List.reverse_reverse]

theorem escapeString_digits (s : GoString) (h : ∀ c ∈ s, isDigit c = true) :
    escapeString s = s := by
  induction s with
  | nil => rfl
  | cons c cs ih =>
    simp [escapeString, escapeRune_digit c (h c (by simp)), ih (fun d hd => h d (by simp [hd]))]

theorem digit_beq_false (c d : Char) (hc : isDigit c = true) (hd : d.toNat < 48) :
    (c == d) = false := by
  rw [isDigit_iff] at hc
  rw [beq_eq_false_iff_ne]
  intro h
  rw [h] at hc
  omega

theorem digit_beq_backslash (c : Char) (hc : isDigit c = true) : (c == '\\') = false := by
  rw [isDigit_iff] at hc
  rw [beq_eq_false_iff_ne]
  intro h
  rw [h] at hc
  have : ('\\' : Char).toNat = 92 := rfl
  omega

theorem scanString_digit_step (fuel : Nat) (c : Char) (rest : GoString) (hc : isDigit c = true) :
    scanString (fuel + 1) (c :: rest) = consChar c (scanString fuel rest) := by
  have h1 : (c == '"') = false := digit_beq_false c '"' hc (by decide)
  have h2 : (c == '\\') = false := digit_beq_backslash c hc
  have h3 : ¬ c.toNat < 0x20 := by
    rw [isDigit_iff] at hc; omega
  rw [scanString]
  simp only [h1, h2, h3]
  simp

/-- A string literal of digits is scanned up to its closing quote. -/
theorem scanString_digits (s rest : GoString) (h : ∀ c ∈ s, isDigit c = true) (fuel : Nat)
    (hf : s.length < fuel) : scanString fuel (s ++ '"' :: rest) = some (s, rest) := by
  induction s generalizing fuel with
  | nil =>
    cases fuel with
    | zero => simp at hf
    | succ k => simp [scanString]
  | cons c cs ih =>
    cases fuel with
    | zero => simp at hf
    | succ k =>
      have hk : cs.length < k := by simpa using hf
      rw [List.cons_append, scanString_digit_step k c _ (h c (by simp)),
        ih (fun d hd => h d (by simp [hd])) k hk]
      rfl

theorem scanString_cep_key (fuel : Nat) (rest : GoString) :
    scanString (fuel + 4) ('c' :: 'e' :: 'p' :: '"' :: rest) = some ("cep".toList, rest) := by
  simp [scanString, consChar]

theorem scanMembers_quote (value : GoString → Option (JSON × GoString)) (fuel : Nat)
    (r : GoString) :
    scanMembers value (fuel + 1) ('"' :: r) =
      match scanString (r.length + 1) r with
      | none => none
      | some (key, r1) =>
        match skipSpace r1 with
        | ':' :: r2 =>
          match value r2 with
          | none => none
          | some (v, r3) =>
            match skipSpace r3 with
            | ',' :: r4 =>
              match scanMembers value fuel (skipSpace r4) with
              | some (ms, r5) => some ((key, v) :: ms, r5)
              | none => none
            | '}' :: r4 => some ([(key, v)], r4)
            | _ => none
        | _ => none := by
  rw [scanMembers]
  simp

theorem parseValue_string (budget : Nat) (r : GoString) :
    parseValue (budget + 1) ('"' :: r) =
      match scanString (r.length + 1) r with
      | some (s, r1) => some (JSON.string s, r1)
      | none => none := by
  rw [parseValue]
  simp [skipSpace, isSpace, List.dropWhile]

theorem parseValue_object (budget : Nat) (r : GoString) :
    parseValue (budget + 1 + 1) ('{' :: '"' :: r) =
      match scanMembers (fun s => parseValue (budget + 1) s) (r.length + 1 + 1) ('"' :: r) with
      | some (ms, r2) => some (JSON.object ms, r2)
      | none => none := by
  rw [parseValue]
  simp [skipSpace, isSpace, List.dropWhile]

/-- The text `{"cep":"<digits>"}` reads as the object with the one member `cep`. -/
theorem readValue_cep_object (s : GoString) (h : ∀ c ∈ s, isDigit c = true) :
    readValue ("\x7b\"cep\":".toList ++ jsonQuote s ++ "\x7d".toList) =
      some (JSON.object [("cep".toList, JSON.string s)]) := by
  have hs := scanString_digits s ['}'] h ((s ++ ['"', '}']).length + 1)
    (by simp only [List.length_append]; omega)
  have hbody : "\x7b\"cep\":".toList ++ jsonQuote s ++ "\x7d".toList =
      '{' :: '"' :: 'c' :: 'e' :: 'p' :: '"' :: ':' :: '"' :: (s ++ ['"', '}']) := by
    simp [jsonQuote, escapeString_digits s h]
  rw [hbody]
  unfold readValue
  rw [show maxNestingDepth + 1 = 9999 + 1 + 1 from rfl, parseValue_object, scanMembers_quote]
  have hkey := scanString_cep_key ((':' :: '"' :: (s ++ ['"', '}'])).length + 1)
    (':' :: '"' :: (s ++ ['"', '}']))
  have hlen : ('c' :: 'e' :: 'p' :: '"' :: ':' :: '"' :: (s ++ ['"', '}'])).length + 1 =
      (':' :: '"' :: (s ++ ['"', '}'])).length + 1 + 4 := by simp
  rw [hlen, hkey]
  have hv : parseValue (9999 + 1) ('"' :: (s ++ ['"', '}'])) =
      some (JSON.string s, ['}']) := by
    rw [parseValue_string, hs]
  simp [skipSpace, isSpace, List.dropWhile, hv]

end Go

/-! ## Lemmas: the fuel of the scanner's loops is never used up -/

namespace Go

theorem skipSpace_length (s : GoString) : (skipSpace s).length ≤ s.length := by
  unfold skipSpace
  induction s with
  | nil => simp
  | cons c cs ih =>
    rw [List.dropWhile_cons]
    split
    · simp only [List.length_cons]; omega
    · exact Nat.le_refl _

theorem skipSpace_cons_length (s r : GoString) (c : Char) (h : skipSpace s = c :: r) :
    r.length < s.length := by
  have := skipSpace_length s
  rw [h] at this
  simp only [List.length_cons] at this
  omega

theorem dropWhile_length (p : Char → Bool) (s : GoString) :
    (s.dropWhile p).length ≤ s.length := by
  induction s with
  | nil => simp
  | cons c cs ih =>
    rw [List.dropWhile_cons]
    split
    · simp only [List.length_cons]; omega
    · exact Nat.le_refl _

theorem span_snd_length (p : Char → Bool) (s : GoString) : (s.span p).2.length ≤ s.length := by
  rw [List.span_eq_take_drop]
  exact dropWhile_length p s

theorem consChar_some (c : Char) (x : Option (GoString × GoString)) (s r : GoString)
    (h : consChar c x = some (s, r)) : ∃ s1, x = some (s1, r) := by
  cases x with
  | none => exact Option.noConfusion h
  | some y =>
    obtain ⟨s1, r1⟩ := y
    simp only [consChar, Option.some.injEq, Prod.mk.injEq] at h
    exact ⟨s1, by rw [h.2]⟩

theorem escapeAt_rest (c d : Char) (r0 r : GoString) (h : escapeAt c r0 = some (d, r)) :
    r.length ≤ r0.length := by
  unfold escapeAt at h
  by_cases hu : (c == 'u') = true
  · rw [if_pos hu] at h
    cases hg : getu4 ('\\' :: c :: r0) with
    | none =>
      rw [hg] at h
      exact Option.noConfusion h
    | some rr =>
      rw [hg] at h
      simp only [] at h
      by_cases hs : (decide (0xD800 ≤ rr) && decide (rr < 0xE000)) = true
      · rw [if_pos hs] at h
        by_cases hd : (utf16DecodeRune rr (getu4 (r0.drop 4)) != replacementChar) = true
        · rw [if_pos hd] at h
          injection h with h
          injection h with _ h
          rw [← h, List.length_drop]
          omega
        · rw [if_neg hd] at h
          injection h with h
          injection h with _ h
          rw [← h, List.length_drop]
          omega
      · rw [if_neg hs] at h
        injection h with h
        injection h with _ h
        rw [← h, List.length_drop]
        omega
  · rw [if_neg hu] at h
    cases he : simpleEscape c with
    | none =>
      rw [he] at h
      exact Option.noConfusion h
    | some e =>
      rw [he] at h
      injection h with h
      injection h with _ h
      rw [← h]

theorem scanEscape_rest (rest r : GoString) (d : Char) (h : scanEscape rest = some (d, r)) :
    r.length < rest.length := by
  cases rest with
  | nil => exact Option.noConfusion h
  | cons c r0 =>
    have := escapeAt_rest c d r0 r h
    simp only [List.length_cons]
    omega

/-- What `scanString` leaves is shorter than its input. -/
theorem scanString_rest (fuel : Nat) (inp s r : GoString)
    (h : scanString fuel inp = some (s, r)) : r.length < inp.length := by
  induction fuel generalizing inp s with
  | zero => exact Option.noConfusion h
  | succ k ih =>
    cases inp with
    | nil => exact Option.noConfusion h
    | cons c rest =>
      rw [scanString] at h
      split at h
      · simp only [Option.some.injEq, Prod.mk.injEq] at h
        rw [← h.2]
        simp
      · split at h
        · split at h
          · rename_i d r1 he
            obtain ⟨s1, hs1⟩ := consChar_some _ _ _ _ h
            have h1 := ih r1 s1 hs1
            have h2 := scanEscape_rest _ _ _ he
            simp only [List.length_cons]
            omega
          · exact Option.noConfusion h
        · split at h
          · exact Option.noConfusion h
          · obtain ⟨s1, hs1⟩ := consChar_some _ _ _ _ h
            have h1 := ih rest s1 hs1
            simp only [List.length_cons]
            omega

/-- More fuel than the length of the input changes nothing for `scanString`. -/
theorem scanString_fuel (f f' : Nat) (inp : GoString) (h : inp.length < f)
    (h' : inp.length < f') : scanString f inp = scanString f' inp := by
  induction f generalizing f' inp with
  | zero => omega
  | succ k ih =>
    cases f' with
    | zero => omega
    | succ k' =>
      cases inp with
      | nil => rfl
      | cons c rest =>
        simp only [List.length_cons] at h h'
        rw [scanString, scanString]
        split
        · rfl
        · split
          · split
            · rename_i d r1 he
              have h2 := scanEscape_rest _ _ _ he
              rw [ih k' r1 (by omega) (by omega)]
            · rfl
          · split
            · rfl
            · rw [ih k' rest (by omega) (by omega)]

/-- More fuel than the length of the input changes nothing for `scanElements`,
when `value` leaves no more than it was given. -/
theorem scanElements_fuel (value : GoString → Option (JSON × GoString))
    (hv : ∀ inp v r, value inp = some (v, r) → r.length ≤ inp.length) (f f' : Nat)
    (inp : GoString) (h : inp.length < f) (h' : inp.length < f') :
    scanElements value f inp = scanElements value f' inp := by
  induction f generalizing f' inp with
  | zero => omega
  | succ k ih =>
    cases f' with
    | zero => omega
    | succ k' =>
      rw [scanElements, scanElements]
      cases hval : value inp with
      | none => rfl
      | some x =>
        obtain ⟨v, r1⟩ := x
        have h1 := hv inp v r1 hval
        simp only []
        split
        · rename_i r2 hsp
          have h2 := skipSpace_cons_length _ _ _ hsp
          rw [ih k' r2 (by omega) (by omega)]
        · rfl
        · rfl

/-- More fuel than the length of the input changes nothing for `scanMembers`,
when `value` leaves no more than it was given. -/
theorem scanMembers_fuel (value : GoString → Option (JSON × GoString))
    (hv : ∀ inp v r, value inp = some (v, r) → r.length ≤ inp.length) (f f' : Nat)
    (inp : GoString) (h : inp.length < f) (h' : inp.length < f') :
    scanMembers value f inp = scanMembers value f' inp := by
  induction f generalizing f' inp with
  | zero => omega
  | succ k ih =>
    cases f' with
    | zero => omega
    | succ k' =>
      cases inp with
      | nil => rfl
      | cons c r =>
        simp only [List.length_cons] at h h'
        rw [scanMembers, scanMembers]
        split
        · cases hkey : scanString (r.length + 1) r with
          | none => rfl
          | some x =>
            obtain ⟨key, r1⟩ := x
            have h1 := scanString_rest _ _ _ _ hkey
            simp only []
            split
            · rename_i r2 hsp
              have h2 := skipSpace_cons_length _ _ _ hsp
              cases hval : value r2 with
              | none => rfl
              | some y =>
                obtain ⟨v, r3⟩ := y
                have h3 := hv r2 v r3 hval
                simp only []
                split
                · rename_i r4 hsp4
                  have h4 := skipSpace_cons_length _ _ _ hsp4
                  have h5 := skipSpace_length r4
                  rw [ih k' (skipSpace r4) (by omega) (by omega)]
                · rfl
                · rfl
            · rfl
        · rfl

end Go

namespace Go

theorem optionalSign_length (s : GoString) : (optionalSign s).2.length ≤ s.length := by
  unfold optionalSign
  split <;> simp

theorem optionalMinus_length (s : GoString) : (optionalMinus s).2.length ≤ s.length := by
  unfold optionalMinus
  split <;> simp

theorem scanExponent_rest (lit inp l r : GoString) (h : scanExponent lit inp = some (l, r)) :
    r.length ≤ inp.length := by
  unfold scanExponent at h
  cases inp with
  | nil =>
    simp only [Option.some.injEq, Prod.mk.injEq] at h
    rw [← h.2]
  | cons e r0 =>
    simp only [] at h
    split at h
    · split at h
      · exact Option.noConfusion h
      · simp only [Option.some.injEq, Prod.mk.injEq] at h
        rw [← h.2]
        have hsp := span_snd_length isDigit (optionalSign r0).2
        have hsg := optionalSign_length r0
        simp only [List.length_cons]
        omega
    · simp only [Option.some.injEq, Prod.mk.injEq] at h
      rw [← h.2]

theorem scanFraction_rest (lit inp l r : GoString) (h : scanFraction lit inp = some (l, r)) :
    r.length ≤ inp.length := by
  unfold scanFraction at h
  split at h
  · rename_i r0
    simp only [] at h
    split at h
    · exact Option.noConfusion h
    · have h1 := scanExponent_rest _ _ _ _ h
      have h2 := span_snd_length isDigit r0
      simp only [List.length_cons]
      omega
  · exact scanExponent_rest _ _ _ _ h

theorem scanNumber_rest (inp l r : GoString) (h : scanNumber inp = some (l, r)) :
    r.length ≤ inp.length := by
  unfold scanNumber at h
  have hsg := optionalMinus_length inp
  simp only [] at h
  split at h
  · exact Option.noConfusion h
  · rename_i c r0 heq
    rw [heq] at hsg
    simp only [List.length_cons] at hsg
    split at h
    · have := scanFraction_rest _ _ _ _ h
      omega
    · split at h
      · have h1 := scanFraction_rest _ _ _ _ h
        have h2 := span_snd_length isDigit r0
        omega
      · exact Option.noConfusion h

theorem scanElements_rest (value : GoString → Option (JSON × GoString))
    (hv : ∀ inp v r, value inp = some (v, r) → r.length ≤ inp.length) (f : Nat)
    (inp : GoString) (es : List JSON) (r : GoString)
    (h : scanElements value f inp = some (es, r)) : r.length ≤ inp.length := by
  induction f generalizing inp es r with
  | zero => exact Option.noConfusion h
  | succ k ih =>
    rw [scanElements] at h
    cases hval : value inp with
    | none =>
      rw [hval] at h
      exact Option.noConfusion h
    | some x =>
      obtain ⟨v, r1⟩ := x
      rw [hval] at h
      have h1 := hv inp v r1 hval
      simp only [] at h
      split at h
      · rename_i r2 hsp
        have h2 := skipSpace_cons_length _ _ _ hsp
        cases hrec : scanElements value k r2 with
        | none =>
          rw [hrec] at h
          exact Option.noConfusion h
        | some y =>
          obtain ⟨es1, r3⟩ := y
          rw [hrec] at h
          simp only [Option.some.injEq, Prod.mk.injEq] at h
          have h3 := ih r2 es1 r3 hrec
          rw [← h.2]
          omega
      · rename_i r2 hsp
        have h2 := skipSpace_cons_length _ _ _ hsp
        simp only [Option.some.injEq, Prod.mk.injEq] at h
        rw [← h.2]
        omega
      · exact Option.noConfusion h

theorem scanMembers_rest (value : GoString → Option (JSON × GoString))
    (hv : ∀ inp v r, value inp = some (v, r) → r.length ≤ inp.length) (f : Nat)
    (inp : GoString) (ms : List (GoString × JSON)) (r : GoString)
    (h : scanMembers value f inp = some (ms, r)) : r.length ≤ inp.length := by
  induction f generalizing inp ms r with
  | zero => exact Option.noConfusion h
  | succ k ih =>
    cases inp with
    | nil => exact Option.noConfusion h
    | cons c r0 =>
      rw [scanMembers] at h
      split at h
      · cases hkey : scanString (r0.length + 1) r0 with
        | none =>
          rw [hkey] at h
          exact Option.noConfusion h
        | some x =>
          obtain ⟨key, r1⟩ := x
          rw [hkey] at h
          have h1 := scanString_rest _ _ _ _ hkey
          simp only [] at h
          split at h
          · rename_i r2 hsp
            have h2 := skipSpace_cons_length _ _ _ hsp
            cases hval : value r2 with
            | none =>
              rw [hval] at h
              exact Option.noConfusion h
            | some y =>
              obtain ⟨v, r3⟩ := y
              rw [hval] at h
              have h3 := hv r2 v r3 hval
              simp only [] at h
              split at h
              · rename_i r4 hsp4
                have h4 := skipSpace_cons_length _ _ _ hsp4
                have h5 := skipSpace_length r4
                cases hrec : scanMembers value k (skipSpace r4) with
                | none =>
                  rw [hrec] at h
                  exact Option.noConfusion h
                | some z =>
                  obtain ⟨ms1, r5⟩ := z
                  rw [hrec] at h
                  simp only [Option.some.injEq, Prod.mk.injEq] at h
                  have h6 := ih (skipSpace r4) ms1 r5 hrec
                  rw [← h.2]
                  simp only [List.length_cons]
                  omega
              · rename_i r4 hsp4
                have h4 := skipSpace_cons_length _ _ _ hsp4
                simp only [Option.some.injEq, Prod.mk.injEq] at h
                rw [← h.2]
                simp only [List.length_cons]
                omega
              · exact Option.noConfusion h
          · exact Option.noConfusion h
      · exact Option.noConfusion h

/-- What `parseValue` leaves is no longer than its input. -/
theorem parseValue_rest (budget : Nat) (inp : GoString) (v : JSON) (r : GoString)
    (h : parseValue budget inp = some (v, r)) : r.length ≤ inp.length := by
  induction budget generalizing inp v r with
  | zero => exact Option.noConfusion h
  | succ b ih =>
    rw [parseValue] at h
    split at h
    · exact Option.noConfusion h
    · rename_i c r0 hsp
      have h0 := skipSpace_cons_length _ _ _ hsp
      split at h
      · split at h
        · exact Option.noConfusion h
        · split at h
          · rename_i r1 hsp1
            have h1 := skipSpace_cons_length _ _ _ hsp1
            simp only [Option.some.injEq, Prod.mk.injEq] at h
            rw [← h.2]
            omega
          · rename_i r1 _
            have h1 := skipSpace_length r0
            split at h
            · rename_i ms r2 hm
              have h2 := scanMembers_rest _ (fun i w q hq => ih i w q hq) _ _ _ _ hm
              simp only [Option.some.injEq, Prod.mk.injEq] at h
              rw [← h.2]
              omega
            · exact Option.noConfusion h
      · split at h
        · split at h
          · exact Option.noConfusion h
          · split at h
            · rename_i r1 hsp1
              have h1 := skipSpace_cons_length _ _ _ hsp1
              simp only [Option.some.injEq, Prod.mk.injEq] at h
              rw [← h.2]
              omega
            · rename_i r1 _
              have h1 := skipSpace_length r0
              split at h
              · rename_i es r2 hm
                have h2 := scanElements_rest _ (fun i w q hq => ih i w q hq) _ _ _ _ hm
                simp only [Option.some.injEq, Prod.mk.injEq] at h
                rw [← h.2]
                omega
              · exact Option.noConfusion h
        · split at h
          · split at h
            · rename_i s r1 hs
              have h1 := scanString_rest _ _ _ _ hs
              simp only [Option.some.injEq, Prod.mk.injEq] at h
              rw [← h.2]
              omega
            · exact Option.noConfusion h
          · split at h
            · split at h
              · rename_i lit r1 hn
                have h1 := scanNumber_rest _ _ _ hn
                simp only [List.length_cons] at h1
                simp only [Option.some.injEq, Prod.mk.injEq] at h
                rw [← h.2]
                omega
              · exact Option.noConfusion h
            · split at h
              all_goals first
                | exact Option.noConfusion h
                | (rename_i heq
                   simp only [Option.some.injEq, Prod.mk.injEq] at h
                   have hl := congrArg List.length heq
                   simp only [List.length_cons] at hl
                   rw [← h.2]
                   omega)

/-- The fuel `parseValue` gives its array loop is never used up: any fuel above
the length of the input gives the same result. -/
theorem parseValue_elements_fuel (budget f : Nat) (inp : GoString) (h : inp.length < f) :
    scanElements (fun s => parseValue budget s) f inp =
      scanElements (fun s => parseValue budget s) (inp.length + 1) inp :=
  scanElements_fuel _ (fun i w q hq => parseValue_rest budget i w q hq) f _ inp h
    (Nat.lt_succ_self _)

/-- The fuel `parseValue` gives its object loop is never used up: any fuel above
the length of the input gives the same result. -/
theorem parseValue_members_fuel (budget f : Nat) (inp : GoString) (h : inp.length < f) :
    scanMembers (fun s => parseValue budget s) f inp =
      scanMembers (fun s => parseValue budget s) (inp.length + 1) inp :=
  scanMembers_fuel _ (fun i w q hq => parseValue_rest budget i w q hq) f _ inp h
    (Nat.lt_succ_self _)

end Go

/-! ## Lemmas: the two decoders of `CEPRequest` -/

namespace Pipeline
open Go Otel

theorem setField_agree (v : ServiceA.model.CEPRequest) (key : GoString) (x : JSON) :
    (ServiceA.model.CEPRequest.setField v key x).map
        (fun a => (⟨a.CEP⟩ : ServiceB.model.CEPRequest)) =
      ServiceB.model.CEPRequest.setField ⟨v.CEP⟩ key x := by
  unfold ServiceA.model.CEPRequest.setField ServiceB.model.CEPRequest.setField
  split
  · cases storeString v.CEP x <;> rfl
  · rfl

theorem foldlM_agree (ms : List (GoString × JSON)) (v : ServiceA.model.CEPRequest) :
    (ms.foldlM (fun a kv => ServiceA.model.CEPRequest.setField a kv.1 kv.2) v).map
        (fun a => (⟨a.CEP⟩ : ServiceB.model.CEPRequest)) =
      ms.foldlM (fun b kv => ServiceB.model.CEPRequest.setField b kv.1 kv.2) ⟨v.CEP⟩ := by
  induction ms generalizing v with
  | nil => rfl
  | cons kv rest ih =>
    have h := setField_agree v kv.1 kv.2
    simp only [List.foldlM_cons]
    cases hA : ServiceA.model.CEPRequest.setField v kv.1 kv.2 with
    | none =>
      rw [hA] at h
      rw [← h]
      rfl
    | some a =>
      rw [hA] at h
      rw [← h]
      exact ih a

/-- The Orchestrator decodes a body exactly as the Gateway does. -/
theorem decode_agree (body : GoString) :
    ServiceB.model.CEPRequest.Decode body =
      (ServiceA.model.CEPRequest.Decode body).map (fun a => ⟨a.CEP⟩) := by
  unfold ServiceB.model.CEPRequest.Decode ServiceA.model.CEPRequest.Decode decodeStruct
  cases readValue body with
  | none => rfl
  | some j =>
    have h : (unmarshalStruct ServiceA.model.CEPRequest.setField ⟨[]⟩ j).map
        (fun a => (⟨a.CEP⟩ : ServiceB.model.CEPRequest)) =
        unmarshalStruct ServiceB.model.CEPRequest.setField ⟨[]⟩ j := by
      cases j with
      | object ms => exact foldlM_agree ms ⟨[]⟩
      | _ => rfl
    simp only []
    rw [← h]
    cases unmarshalStruct ServiceA.model.CEPRequest.setField ⟨[]⟩ j <;> rfl

theorem decode_agree_ok (body cep : GoString) :
    ServiceB.model.CEPRequest.Decode body = Except.ok ⟨cep⟩ ↔
      ServiceA.model.CEPRequest.Decode body = Except.ok ⟨cep⟩ := by
  rw [decode_agree]
  cases ServiceA.model.CEPRequest.Decode body with
  | error e => simp [Except.map]
  | ok a =>
    cases a with
    | mk c => simp [Except.map]

theorem decode_agree_error (body : GoString) :
    (∃ e, ServiceB.model.CEPRequest.Decode body = Except.error e) ↔
      ∃ e, ServiceA.model.CEPRequest.Decode body = Except.error e := by
  rw [decode_agree]
  cases ServiceA.model.CEPRequest.Decode body <;> simp [Except.map]

/-- The Orchestrator decodes the text `{"cep":"<digits>"}` to the digits. -/
theorem decode_forwarded (s : GoString) (h : ∀ c ∈ s, isDigit c = true) :
    ServiceB.model.CEPRequest.Decode ("\x7b\"cep\":".toList ++ jsonQuote s ++ "\x7d".toList) =
      Except.ok ⟨s⟩ := by
  unfold ServiceB.model.CEPRequest.Decode decodeStruct
  rw [readValue_cep_object s h]
  simp [unmarshalStruct, ServiceB.model.CEPRequest.setField, keyMatches, storeString]

theorem marshal_digits (s : GoString) (h : ∀ c ∈ s, isDigit c = true) :
    "\x7b\"cep\":".toList ++ jsonQuote s ++ "\x7d".toList =
      "\x7b\"cep\":\"".toList ++ s ++ "\"\x7d".toList := by
  simp [jsonQuote, escapeString_digits s h]

end Pipeline

/-! ## Lemmas: the Orchestrator's steps -/

namespace Otel
open Go

/-- Starting a span makes no call. -/
theorem Start_calls (ids : Nat → Nat) (ctx : Context) (name : GoString) (s : Effects) :
    (Start ids ctx name s).2.calls = s.calls := by
  unfold Start
  simp only []
  split <;> rfl

end Otel

namespace ServiceB
open Go Otel

/-- Whatever the provider answers, `fetchCity` starts one span and makes one call. -/
theorem fetchCity_effects (env : Env) (ctx : Context) (cep : GoString) (s : Effects) :
    (fetchCity env ctx cep s).2 =
      ((Start env.ids ctx "fetch-city-via-viacep".toList s).2).call
        ⟨"GET".toList, viaCEPURL cep, [], []⟩ := by
  unfold fetchCity
  simp only []
  generalize env.Get (viaCEPURL cep) = g
  cases g with
  | error e => rfl
  | ok resp =>
    simp only []
    split
    · rfl
    · generalize model.ViaCEPResponse.Decode resp.Body = d
      cases d with
      | error e => rfl
      | ok data =>
        simp only []
        split <;> rfl

theorem fetchWeather_effects {F : Type} (ops : Float64Ops F) (env : Env) (ctx : Context)
    (city : GoString) (s : Effects) :
    (fetchWeather ops env ctx city s).2 =
      ((Start env.ids ctx "fetch-weather-api".toList s).2).call
        ⟨"GET".toList, weatherURL (if env.apiKey == [] then "demo".toList else env.apiKey) city,
          [], []⟩ := by
  unfold fetchWeather
  simp only []
  generalize env.Get (weatherURL (if env.apiKey == [] then "demo".toList else env.apiKey) city) = g
  cases g with
  | error e => rfl
  | ok resp =>
    simp only []
    split
    · rfl
    · generalize model.WeatherAPIResponse.Decode ops resp.Body = d
      cases d <;> rfl

/-- The pair `fetchCity` returns, by what the provider did. -/
theorem fetchCity_result (env : Env) (ctx : Context) (cep : GoString) (s : Effects) :
    (fetchCity env ctx cep s).1 =
      match env.Get (viaCEPURL cep) with
      | Except.error e => ([], some (GoError.url e))
      | Except.ok resp =>
        if resp.StatusCode != 200 then ([], none)
        else
          match model.ViaCEPResponse.Decode resp.Body with
          | Except.error e => ([], some e)
          | Except.ok data =>
            if data.Erro != [] then ([], some GoError.ErrNoLocation) else (data.Localidade, none) := by
  unfold fetchCity
  simp only []
  generalize env.Get (viaCEPURL cep) = g
  cases g with
  | error e => rfl
  | ok resp =>
    simp only []
    split
    · rfl
    · generalize model.ViaCEPResponse.Decode resp.Body = d
      cases d with
      | error e => rfl
      | ok data =>
        simp only []
        split <;> rfl

theorem fetchWeather_result {F : Type} (ops : Float64Ops F) (env : Env) (ctx : Context)
    (city : GoString) (s : Effects) :
    (fetchWeather ops env ctx city s).1 =
      match env.Get (weatherURL (if env.apiKey == [] then "demo".toList else env.apiKey) city) with
      | Except.error e => (ops.zero, some (GoError.url e))
      | Except.ok resp =>
        if resp.StatusCode != 200 then (ops.zero, none)
        else
          match model.WeatherAPIResponse.Decode ops resp.Body with
          | Except.error e => (ops.zero, some e)
          | Except.ok data => (data.Current.TempC, none) := by
  unfold fetchWeather
  simp only []
  generalize env.Get (weatherURL (if env.apiKey == [] then "demo".toList else env.apiKey) city) = g
  cases g with
  | error e => rfl
  | ok resp =>
    simp only []
    split
    · rfl
    · generalize model.WeatherAPIResponse.Decode ops resp.Body = d
      cases d <;> rfl

/-- Every error of the JSON decoder is the one value `decodeError`. -/
theorem decodeStruct_error {α : Type} (setField : α → GoString → JSON → Option α) (cur : α)
    (body : GoString) (e : GoError) (h : decodeStruct setField cur body = Except.error e) :
    e = GoError.decodeError := by
  unfold decodeStruct at h
  split at h
  · injection h with h; exact h.symm
  · split at h
    · exact Except.noConfusion h
    · injection h with h; exact h.symm

theorem WeatherHandler_decode_error {F : Type} (ops : Float64Ops F) (env : Env) (r : Request)
    (e : GoError) (h : model.CEPRequest.Decode r.Body = Except.error e) :
    WeatherHandler ops env r =
      ⟨⟨400, encodeMessage "invalid request body".toList⟩, Effects.none⟩ := by
  unfold WeatherHandler
  simp only [h]

theorem WeatherHandler_invalid {F : Type} (ops : Float64Ops F) (env : Env) (r : Request)
    (cep : GoString) (h : model.CEPRequest.Decode r.Body = Except.ok ⟨cep⟩)
    (hv : ¬ Spec.EightASCIIDigits (TrimSpace cep)) :
    WeatherHandler ops env r = ⟨⟨422, encodeMessage "invalid zipcode".toList⟩, Effects.none⟩ := by
  unfold WeatherHandler
  simp only [h, (Spec.check_iff (TrimSpace cep)).2 hv, if_true]

/-- Past validation the handler is its lookups: the response and effects by the
pairs `fetchCity` and `fetchWeather` return. -/
theorem WeatherHandler_valid {F : Type} (ops : Float64Ops F) (env : Env) (r : Request)
    (cep : GoString) (h : model.CEPRequest.Decode r.Body = Except.ok ⟨cep⟩)
    (hv : Spec.EightASCIIDigits (TrimSpace cep)) :
    WeatherHandler ops env r =
      let rc := fetchCity env Context.ofServer (TrimSpace cep) Effects.none
      if rc.1.2 != none then
        if rc.1.2 == some GoError.ErrNoLocation then
          ⟨⟨404, encodeMessage "can not find zipcode".toList⟩, rc.2⟩
        else ⟨⟨500, encodeMessage "internal server error during city lookup".toList⟩, rc.2⟩
      else
        let rw := fetchWeather ops env Context.ofServer rc.1.1 rc.2
        if rw.1.2 != none then
          ⟨⟨500, encodeMessage "internal server error during weather lookup".toList⟩, rw.2⟩
        else
          ⟨⟨200, model.WeatherResponse.Encode ops
              ⟨rc.1.1, rw.1.1, ops.add (ops.mul rw.1.1 ops.lit_1_8) ops.lit_32,
                ops.add rw.1.1 ops.lit_273⟩⟩,
            (Start env.ids Context.ofServer "temperature-conversion".toList rw.2).2⟩ := by
  unfold WeatherHandler
  simp only [h, (Spec.check_false_iff (TrimSpace cep)).2 hv]
  rfl

/-- Past validation the status is 404, 500 or 200. -/
theorem WeatherHandler_valid_status {F : Type} (ops : Float64Ops F) (env : Env) (r : Request)
    (cep : GoString) (h : model.CEPRequest.Decode r.Body = Except.ok ⟨cep⟩)
    (hv : Spec.EightASCIIDigits (TrimSpace cep)) :
    (WeatherHandler ops env r).w.StatusCode = 404 ∨ (WeatherHandler ops env r).w.StatusCode = 500 ∨
      (WeatherHandler ops env r).w.StatusCode = 200 := by
  rw [WeatherHandler_valid ops env r cep h hv]
  simp only []
  split
  · split
    · exact Or.inl rfl
    · exact Or.inr (Or.inl rfl)
  · split
    · exact Or.inr (Or.inl rfl)
    · exact Or.inr (Or.inr rfl)

/-- Past validation the postal-code provider is called first, and the weather
provider after it exactly when `fetchCity` returned a nil error. -/
theorem WeatherHandler_valid_calls {F : Type} (ops : Float64Ops F) (env : Env) (r : Request)
    (cep : GoString) (h : model.CEPRequest.Decode r.Body = Except.ok ⟨cep⟩)
    (hv : Spec.EightASCIIDigits (TrimSpace cep)) :
    (WeatherHandler ops env r).fx.calls =
      if (fetchCity env Context.ofServer (TrimSpace cep) Effects.none).1.2 != none then
        [⟨"GET".toList, viaCEPURL (TrimSpace cep), [], []⟩]
      else
        [⟨"GET".toList, viaCEPURL (TrimSpace cep), [], []⟩,
          ⟨"GET".toList, weatherURL (if env.apiKey == [] then "demo".toList else env.apiKey)
            (fetchCity env Context.ofServer (TrimSpace cep) Effects.none).1.1, [], []⟩] := by
  rw [WeatherHandler_valid ops env r cep h hv]
  simp only []
  split
  · split <;> (simp only [fetchCity_effects, Effects.call, Start_calls]; rfl)
  · split <;>
      (simp only [fetchWeather_effects, fetchCity_effects, Effects.call, Start_calls]; rfl)

end ServiceB

/-! ## Lemmas: the Gateway's steps -/

namespace ServiceA
open Go Otel

theorem CEPValidationHandler_decode_error (ids : Nat → Nat)
    (Do : Request → Except URLError Response) (r : Request) (e : GoError)
    (h : model.CEPRequest.Decode r.Body = Except.error e) :
    CEPValidationHandler ids Do r =
      ⟨some ⟨400, encodeMessage "invalid request body".toList⟩,
        (Start ids Context.ofServer "CEPValidationHandler".toList Effects.none).2⟩ := by
  unfold CEPValidationHandler
  simp only [h]

theorem CEPValidationHandler_invalid (ids : Nat → Nat)
    (Do : Request → Except URLError Response) (r : Request) (cep : GoString)
    (h : model.CEPRequest.Decode r.Body = Except.ok ⟨cep⟩)
    (hv : ¬ Spec.EightASCIIDigits (TrimSpace cep)) :
    CEPValidationHandler ids Do r =
      ⟨some ⟨422, encodeMessage "invalid zipcode".toList⟩,
        (Start ids Context.ofServer "CEPValidationHandler".toList Effects.none).2⟩ := by
  unfold CEPValidationHandler
  simp only [h, (Spec.check_iff (TrimSpace cep)).2 hv, if_true]

/-- Past validation the Gateway makes one call, a POST to the Orchestrator
whose body is `{"cep":"<code>"}`, and answers by what that call returned. -/
theorem CEPValidationHandler_valid (ids : Nat → Nat)
    (Do : Request → Except URLError Response) (r : Request) (cep : GoString)
    (h : model.CEPRequest.Decode r.Body = Except.ok ⟨cep⟩)
    (hv : Spec.EightASCIIDigits (TrimSpace cep)) :
    ∃ hdr : Header,
      (CEPValidationHandler ids Do r).fx.calls =
        [⟨"POST".toList, serviceBURL, hdr,
          "\x7b\"cep\":\"".toList ++ TrimSpace cep ++ "\"\x7d".toList⟩] ∧
      (CEPValidationHandler ids Do r).w =
        match Do ⟨"POST".toList, serviceBURL, hdr,
          "\x7b\"cep\":\"".toList ++ TrimSpace cep ++ "\"\x7d".toList⟩ with
        | Except.error _ => some ⟨500, encodeMessage "could not connect to service B".toList⟩
        | Except.ok resp => if checkWriteHeaderCode resp.StatusCode then some resp else none := by
  have hd := ((Spec.eightASCIIDigits_iff _).1 hv).2
  refine ⟨Inject (Start ids (Start ids Context.ofServer "CEPValidationHandler".toList
    Effects.none).1 "call-service-b".toList (Start ids Context.ofServer
    "CEPValidationHandler".toList Effects.none).2).1
    (Header.Set [] "Content-Type".toList "application/json".toList), ?_, ?_⟩
  · unfold CEPValidationHandler
    simp only [h, (Spec.check_false_iff (TrimSpace cep)).2 hv, model.CEPRequest.Marshal,
      NewRequestWithContext, Pipeline.marshal_digits _ hd, Bool.false_eq_true, if_false]
    split
    · simp only [Effects.call, Start_calls]
      rfl
    · split
      · simp only [Effects.call, Start_calls]
        rfl
      · split <;> (simp only [Effects.call, Start_calls]; rfl)
  · unfold CEPValidationHandler
    simp only [h, (Spec.check_false_iff (TrimSpace cep)).2 hv, model.CEPRequest.Marshal,
      NewRequestWithContext, Pipeline.marshal_digits _ hd, Bool.false_eq_true, if_false]
    split
    · rfl
    · rename_i resp _
      cases hok : checkWriteHeaderCode resp.StatusCode
      · simp
      · simp only [Bool.not_true, Bool.false_eq_true, if_false, if_true]
        split <;> rfl

end ServiceA

/-! ## Validation and forwarding (C1, C7, C8, C10) -/

namespace Pipeline
open Go Otel

/-- The Orchestrator accepts what the Gateway forwards: on the text
`{"cep":"<code>"}` with a code of 8 digits its status is 404, 500 or 200. -/
theorem forwarded_status {F : Type} (ops : Float64Ops F) (env : ServiceB.Env) (fwd : Request)
    (code : GoString) (hv : Spec.EightASCIIDigits code)
    (hb : fwd.Body = "\x7b\"cep\":\"".toList ++ code ++ "\"\x7d".toList) :
    ServiceB.model.CEPRequest.Decode fwd.Body = Except.ok ⟨code⟩ ∧
      TrimSpace code = code ∧
      ((ServiceB.WeatherHandler ops env fwd).w.StatusCode = 404 ∨
        (ServiceB.WeatherHandler ops env fwd).w.StatusCode = 500 ∨
        (ServiceB.WeatherHandler ops env fwd).w.StatusCode = 200) := by
  have hd := ((Spec.eightASCIIDigits_iff _).1 hv).2
  have hdec : ServiceB.model.CEPRequest.Decode fwd.Body = Except.ok ⟨code⟩ := by
    rw [hb, ← marshal_digits code hd]
    exact decode_forwarded code hd
  have htrim := TrimSpace_digits code hd
  refine ⟨hdec, htrim, ?_⟩
  exact ServiceB.WeatherHandler_valid_status ops env fwd code hdec (by rw [htrim]; exact hv)

/-- C1: for every request body that decodes to a `CEPRequest`, the Gateway
(whose client reaches the Orchestrator or fails) and the Orchestrator each
respond 422 with `{"message":"invalid zipcode"}` if and only if the `cep`
field, trimmed, is not exactly 8 ASCII decimal digits; the two decode the body
alike and reject the same strings; and under any client at all the Gateway
answers that 422 without an outbound call exactly on those strings. -/
theorem C1_invalid_zipcode_iff {F : Type} (ops : Float64Ops F) (env : ServiceB.Env)
    (ids : Nat → Nat) (Do : Request → Except URLError Response)
    (hDo : ReachesOrchestrator ops env Do) (r : Request) (cep : GoString)
    (hdec : ServiceA.model.CEPRequest.Decode r.Body = Except.ok ⟨cep⟩) :
    ServiceB.model.CEPRequest.Decode r.Body = Except.ok ⟨cep⟩ ∧
      ((ServiceA.CEPValidationHandler ids Do r).w = some Spec.invalidZipcode ↔
        ¬ Spec.EightASCIIDigits (TrimSpace cep)) ∧
      ((ServiceB.WeatherHandler ops env r).w = Spec.invalidZipcode ↔
        ¬ Spec.EightASCIIDigits (TrimSpace cep)) ∧
      ((ServiceA.CEPValidationHandler ids Do r).w = some Spec.invalidZipcode ↔
        (ServiceB.WeatherHandler ops env r).w = Spec.invalidZipcode) ∧
      (∀ Do' : Request → Except URLError Response,
        ((ServiceA.CEPValidationHandler ids Do' r).w = some Spec.invalidZipcode ∧
          (ServiceA.CEPValidationHandler ids Do' r).fx.calls = []) ↔
        ¬ Spec.EightASCIIDigits (TrimSpace cep)) := by
  have hdecB := (decode_agree_ok r.Body cep).2 hdec
  have hAny : ∀ Do' : Request → Except URLError Response,
      ((ServiceA.CEPValidationHandler ids Do' r).w = some Spec.invalidZipcode ∧
        (ServiceA.CEPValidationHandler ids Do' r).fx.calls = []) ↔
      ¬ Spec.EightASCIIDigits (TrimSpace cep) := by
    intro Do'
    constructor
    · rintro ⟨_, hc⟩ hv
      obtain ⟨hdr, hc', _⟩ := ServiceA.CEPValidationHandler_valid ids Do' r cep hdec hv
      rw [hc'] at hc
      exact List.noConfusion hc
    · intro hv
      rw [ServiceA.CEPValidationHandler_invalid ids Do' r cep hdec hv]
      exact ⟨rfl, Start_calls _ _ _ _⟩
  have hA : (ServiceA.CEPValidationHandler ids Do r).w = some Spec.invalidZipcode ↔
      ¬ Spec.EightASCIIDigits (TrimSpace cep) := by
    constructor
    · intro h hv
      obtain ⟨hdr, _, hw⟩ := ServiceA.CEPValidationHandler_valid ids Do r cep hdec hv
      rw [hw] at h
      rcases hDo ⟨"POST".toList, ServiceA.serviceBURL, hdr,
        "\x7b\"cep\":\"".toList ++ TrimSpace cep ++ "\"\x7d".toList⟩ with ⟨e, he⟩ | he
      · rw [he] at h
        have h500 : (500 : Nat) = 422 := congrArg Response.StatusCode (Option.some.inj h)
        exact absurd h500 (by decide)
      · rw [he] at h
        have hs := (forwarded_status ops env ⟨"POST".toList, ServiceA.serviceBURL, hdr,
          "\x7b\"cep\":\"".toList ++ TrimSpace cep ++ "\"\x7d".toList⟩ (TrimSpace cep) hv rfl).2.2
        simp only [orchestratorDo] at h
        split at h
        · have h422 := congrArg Response.StatusCode (Option.some.inj h)
          rw [h422] at hs
          revert hs
          decide
        · exact Option.noConfusion h
    · intro hv
      rw [ServiceA.CEPValidationHandler_invalid ids Do r cep hdec hv]
      rfl
  have hB : (ServiceB.WeatherHandler ops env r).w = Spec.invalidZipcode ↔
      ¬ Spec.EightASCIIDigits (TrimSpace cep) := by
    constructor
    · intro h hv
      have hs := ServiceB.WeatherHandler_valid_status ops env r cep hdecB hv
      rw [congrArg Response.StatusCode h] at hs
      revert hs
      decide
    · intro hv
      rw [ServiceB.WeatherHandler_invalid ops env r cep hdecB hv]
      rfl
  exact ⟨hdecB, hA, hB, hA.trans hB.symm, hAny⟩

/-- C1 at concrete codes: a hyphen, a sign, a non-ASCII digit and a short
code are each rejected by both handlers. -/
theorem C1_invalid_zipcode_witness :
    (ServiceA.CEPValidationHandler Scenario.gatewayIds
        (orchestratorDo Scenario.ops (Scenario.env Scenario.saoPaulo Scenario.twentyDegrees
          Scenario.orchestratorIds))
        (Scenario.post "/cep-weather" "\x7b\"cep\":\"01001-000\"\x7d")).w =
        some Spec.invalidZipcode ∧
      (ServiceB.WeatherHandler Scenario.ops (Scenario.env Scenario.saoPaulo Scenario.twentyDegrees
          Scenario.orchestratorIds)
        (Scenario.post "/weather" "\x7b\"cep\":\"+1001000\"\x7d")).w = Spec.invalidZipcode ∧
      (ServiceB.WeatherHandler Scenario.ops (Scenario.env Scenario.saoPaulo Scenario.twentyDegrees
          Scenario.orchestratorIds)
        (Scenario.post "/weather" "\x7b\"cep\":\"0100100٠\"\x7d")).w = Spec.invalidZipcode ∧
      (ServiceA.CEPValidationHandler Scenario.gatewayIds
        (orchestratorDo Scenario.ops (Scenario.env Scenario.saoPaulo Scenario.twentyDegrees
          Scenario.orchestratorIds))
        (Scenario.post "/cep-weather" "\x7b\"cep\":\"1234\"\x7d")).w =
        some Spec.invalidZipcode :=
  ⟨(C1_invalid_zipcode_iff Scenario.ops _ Scenario.gatewayIds _ (fun _ => Or.inr rfl)
      (Scenario.post "/cep-weather" "\x7b\"cep\":\"01001-000\"\x7d") "01001-000".toList
      (by decide!)).2.1.2 (by decide),
    (C1_invalid_zipcode_iff Scenario.ops _ Scenario.gatewayIds _ (fun _ => Or.inr rfl)
      (Scenario.post "/weather" "\x7b\"cep\":\"+1001000\"\x7d") "+1001000".toList
      (by decide!)).2.2.1.2 (by decide),
    (C1_invalid_zipcode_iff Scenario.ops _ Scenario.gatewayIds _ (fun _ => Or.inr rfl)
      (Scenario.post "/weather" "\x7b\"cep\":\"0100100٠\"\x7d") "0100100٠".toList
      (by decide!)).2.2.1.2 (by decide),
    (C1_invalid_zipcode_iff Scenario.ops _ Scenario.gatewayIds _ (fun _ => Or.inr rfl)
      (Scenario.post "/cep-weather" "\x7b\"cep\":\"1234\"\x7d") "1234".toList
      (by decide!)).2.1.2 (by decide)⟩

end Pipeline

namespace Pipeline
open Go Otel

/-- C7: when the body decodes and the trimmed code is 8 ASCII digits, the
Gateway makes exactly one outbound call, a POST to the Orchestrator whose body
is `json.Marshal` of the `CEPRequest` holding the trimmed code, that is the
text `{"cep":"<code>"}`, which both services decode back to that code; when
the body fails decoding or validation, the Gateway makes no outbound call. -/
theorem C7_forwards_validated_code (ids : Nat → Nat) (Do : Request → Except URLError Response)
    (r : Request) :
    (∀ cep, ServiceA.model.CEPRequest.Decode r.Body = Except.ok ⟨cep⟩ →
      Spec.EightASCIIDigits (TrimSpace cep) →
      ∃ hdr : Header,
        (ServiceA.CEPValidationHandler ids Do r).fx.calls =
          [⟨"POST".toList, ServiceA.serviceBURL, hdr,
            "\x7b\"cep\":\"".toList ++ TrimSpace cep ++ "\"\x7d".toList⟩] ∧
        ServiceA.model.CEPRequest.Marshal ⟨TrimSpace cep⟩ =
          Except.ok ("\x7b\"cep\":\"".toList ++ TrimSpace cep ++ "\"\x7d".toList) ∧
        ServiceA.model.CEPRequest.Decode
          ("\x7b\"cep\":\"".toList ++ TrimSpace cep ++ "\"\x7d".toList) =
            Except.ok ⟨TrimSpace cep⟩ ∧
        ServiceB.model.CEPRequest.Decode
          ("\x7b\"cep\":\"".toList ++ TrimSpace cep ++ "\"\x7d".toList) =
            Except.ok ⟨TrimSpace cep⟩) ∧
    ((∃ e, ServiceA.model.CEPRequest.Decode r.Body = Except.error e) →
      (ServiceA.CEPValidationHandler ids Do r).fx.calls = []) ∧
    (∀ cep, ServiceA.model.CEPRequest.Decode r.Body = Except.ok ⟨cep⟩ →
      ¬ Spec.EightASCIIDigits (TrimSpace cep) →
      (ServiceA.CEPValidationHandler ids Do r).fx.calls = []) := by
  refine ⟨?_, ?_, ?_⟩
  · intro cep hdec hv
    have hd := ((Spec.eightASCIIDigits_iff _).1 hv).2
    obtain ⟨hdr, hc, _⟩ := ServiceA.CEPValidationHandler_valid ids Do r cep hdec hv
    have hB : ServiceB.model.CEPRequest.Decode
        ("\x7b\"cep\":\"".toList ++ TrimSpace cep ++ "\"\x7d".toList) =
          Except.ok ⟨TrimSpace cep⟩ := by
      rw [← marshal_digits _ hd]
      exact decode_forwarded _ hd
    refine ⟨hdr, hc, ?_, (decode_agree_ok _ _).1 hB, hB⟩
    unfold ServiceA.model.CEPRequest.Marshal
    rw [marshal_digits _ hd]
  · rintro ⟨e, he⟩
    rw [ServiceA.CEPValidationHandler_decode_error ids Do r e he]
    exact Start_calls _ _ _ _
  · intro cep hdec hv
    rw [ServiceA.CEPValidationHandler_invalid ids Do r cep hdec hv]
    exact Start_calls _ _ _ _

/-- C7 at concrete bodies: a padded code under an upper-case key next to
another field is forwarded as `{"cep":"01001000"}`; a short code and a body
that is not JSON are not forwarded. -/
theorem C7_forwards_validated_code_witness :
    (∃ hdr : Header,
      (ServiceA.CEPValidationHandler Scenario.gatewayIds
        (fun _ => Scenario.unreachable "Post" "http://service-b:8081/weather")
        (Scenario.post "/cep-weather"
          "\x7b\"x\":[1,2], \"CEP\":\"\\n 01001000\\t\"\x7d")).fx.calls =
        [⟨"POST".toList, "http://service-b:8081/weather".toList, hdr,
          "\x7b\"cep\":\"01001000\"\x7d".toList⟩]) ∧
      (ServiceA.CEPValidationHandler Scenario.gatewayIds
        (fun _ => Scenario.unreachable "Post" "http://service-b:8081/weather")
        (Scenario.post "/cep-weather" "\x7b\"cep\":\"1234\"\x7d")).fx.calls = [] ∧
      (ServiceA.CEPValidationHandler Scenario.gatewayIds
        (fun _ => Scenario.unreachable "Post" "http://service-b:8081/weather")
        (Scenario.post "/cep-weather" "cep=01001000")).fx.calls = [] := by
  refine ⟨?_, ?_, ?_⟩
  · obtain ⟨hdr, hc, _⟩ := (C7_forwards_validated_code Scenario.gatewayIds
      (fun _ => Scenario.unreachable "Post" "http://service-b:8081/weather")
      (Scenario.post "/cep-weather"
        "\x7b\"x\":[1,2], \"CEP\":\"\\n 01001000\\t\"\x7d")).1 "\n 01001000\t".toList
      (by decide!) (by decide)
    exact ⟨hdr, hc⟩
  · exact (C7_forwards_validated_code Scenario.gatewayIds _
      (Scenario.post "/cep-weather" "\x7b\"cep\":\"1234\"\x7d")).2.2 "1234".toList
      (by decide!) (by decide)
  · exact (C7_forwards_validated_code Scenario.gatewayIds _
      (Scenario.post "/cep-weather" "cep=01001000")).2.1 ⟨GoError.decodeError, by decide!⟩

/-- C8 (amended): for a validated request the Gateway makes one call to the
Orchestrator; when that call returns a status `s` of three digits
(100 ≤ s ≤ 999), the only ones `WriteHeader` takes, and a body `b`, the
Gateway's response is exactly `s` and `b`; when the call fails the response is
500 with `{"message":"could not connect to service B"}`. -/
theorem C8_relays_status_and_body (ids : Nat → Nat) (Do : Request → Except URLError Response)
    (r : Request) (cep : GoString)
    (hdec : ServiceA.model.CEPRequest.Decode r.Body = Except.ok ⟨cep⟩)
    (hv : Spec.EightASCIIDigits (TrimSpace cep)) :
    ∃ fwd : Request,
      (ServiceA.CEPValidationHandler ids Do r).fx.calls = [fwd] ∧
      (∀ s b, Do fwd = Except.ok ⟨s, b⟩ → 100 ≤ s → s ≤ 999 →
        (ServiceA.CEPValidationHandler ids Do r).w = some ⟨s, b⟩) ∧
      (∀ e, Do fwd = Except.error e →
        (ServiceA.CEPValidationHandler ids Do r).w =
          some ⟨500, "\x7b\"message\":\"could not connect to service B\"\x7d\n".toList⟩) := by
  obtain ⟨hdr, hc, hw⟩ := ServiceA.CEPValidationHandler_valid ids Do r cep hdec hv
  refine ⟨_, hc, ?_, ?_⟩
  · intro s b hdo hlo hhi
    have hcheck : checkWriteHeaderCode s = true := by
      simp [checkWriteHeaderCode, hlo, hhi]
    rw [hw, hdo]
    simp only [hcheck, if_true]
  · intro e hdo
    rw [hw, hdo]
    rfl

/-- C8 at concrete upstream answers: a 503 with an HTML body and a 200 with an
empty body are relayed as they are, a refused connection gives the 500. -/
theorem C8_relays_status_and_body_witness :
    (ServiceA.CEPValidationHandler Scenario.gatewayIds
        (fun _ => Scenario.status 503 "<html>busy</html>")
        (Scenario.post "/cep-weather" "\x7b\"cep\":\"01001000\"\x7d")).w =
        some ⟨503, "<html>busy</html>".toList⟩ ∧
      (ServiceA.CEPValidationHandler Scenario.gatewayIds
        (fun _ => Scenario.status 200 "")
        (Scenario.post "/cep-weather" "\x7b\"cep\":\"01001000\"\x7d")).w = some ⟨200, []⟩ ∧
      (ServiceA.CEPValidationHandler Scenario.gatewayIds
        (fun _ => Scenario.unreachable "Post" "http://service-b:8081/weather")
        (Scenario.post "/cep-weather" "\x7b\"cep\":\"01001000\"\x7d")).w =
        some ⟨500, "\x7b\"message\":\"could not connect to service B\"\x7d\n".toList⟩ := by
  refine ⟨?_, ?_, ?_⟩
  · obtain ⟨_, _, hok, _⟩ := C8_relays_status_and_body Scenario.gatewayIds
      (fun _ => Scenario.status 503 "<html>busy</html>")
      (Scenario.post "/cep-weather" "\x7b\"cep\":\"01001000\"\x7d") "01001000".toList
      (by decide!) (by decide)
    exact hok 503 _ rfl (by decide) (by decide)
  · obtain ⟨_, _, hok, _⟩ := C8_relays_status_and_body Scenario.gatewayIds
      (fun _ => Scenario.status 200 "")
      (Scenario.post "/cep-weather" "\x7b\"cep\":\"01001000\"\x7d") "01001000".toList
      (by decide!) (by decide)
    exact hok 200 _ rfl (by decide) (by decide)
  · obtain ⟨_, _, _, herr⟩ := C8_relays_status_and_body Scenario.gatewayIds
      (fun _ => Scenario.unreachable "Post" "http://service-b:8081/weather")
      (Scenario.post "/cep-weather" "\x7b\"cep\":\"01001000\"\x7d") "01001000".toList
      (by decide!) (by decide)
    exact herr _ rfl

/-- C8 as first stated, for every status, fails at the status 42: the request
is valid, the call to the Orchestrator returns status 42 with the body `hi`,
`WriteHeader(42)` panics and the Gateway writes no response, in particular
not the status 42 with the body `hi`. -/
theorem C8_status_below_100_counterexample :
    ServiceA.model.CEPRequest.Decode
        (Scenario.post "/cep-weather" "\x7b\"cep\":\"01001000\"\x7d").Body =
        Except.ok ⟨"01001000".toList⟩ ∧
      Spec.EightASCIIDigits (TrimSpace "01001000".toList) ∧
      (∀ fwd : Request, (fun _ : Request => Scenario.status 42 "hi") fwd =
        Except.ok ⟨42, "hi".toList⟩) ∧
      (ServiceA.CEPValidationHandler Scenario.gatewayIds (fun _ => Scenario.status 42 "hi")
        (Scenario.post "/cep-weather" "\x7b\"cep\":\"01001000\"\x7d")).fx.calls.length = 1 ∧
      (ServiceA.CEPValidationHandler Scenario.gatewayIds (fun _ => Scenario.status 42 "hi")
        (Scenario.post "/cep-weather" "\x7b\"cep\":\"01001000\"\x7d")).w = none ∧
      (ServiceA.CEPValidationHandler Scenario.gatewayIds (fun _ => Scenario.status 42 "hi")
        (Scenario.post "/cep-weather" "\x7b\"cep\":\"01001000\"\x7d")).w ≠
        some ⟨42, "hi".toList⟩ := by
  refine ⟨by decide!, by decide, fun _ => rfl, by decide!, by decide!, by decide!⟩

/-- C10: whatever request the Gateway forwards, the Orchestrator decodes its
body to the very code the Gateway validated, trimming that code again changes
nothing and the same check accepts it, so the Orchestrator answers neither 400
nor 422 and its first outbound call is the city lookup for that code. -/
theorem C10_orchestrator_accepts_forwarded {F : Type} (ops : Float64Ops F) (env : ServiceB.Env)
    (ids : Nat → Nat) (Do : Request → Except URLError Response) (r fwd : Request)
    (hf : fwd ∈ (ServiceA.CEPValidationHandler ids Do r).fx.calls) :
    ∃ raw : GoString,
      ServiceA.model.CEPRequest.Decode r.Body = Except.ok ⟨raw⟩ ∧
      Spec.EightASCIIDigits (TrimSpace raw) ∧
      ServiceB.model.CEPRequest.Decode fwd.Body = Except.ok ⟨TrimSpace raw⟩ ∧
      TrimSpace (TrimSpace raw) = TrimSpace raw ∧
      (len (TrimSpace (TrimSpace raw)) != 8 ||
        !cepPatternMatchString (TrimSpace (TrimSpace raw))) = false ∧
      (ServiceB.WeatherHandler ops env fwd).w.StatusCode ≠ 400 ∧
      (ServiceB.WeatherHandler ops env fwd).w.StatusCode ≠ 422 ∧
      (ServiceB.WeatherHandler ops env fwd).fx.calls.head? =
        some ⟨"GET".toList, ServiceB.viaCEPURL (TrimSpace raw), [], []⟩ := by
  cases hA : ServiceA.model.CEPRequest.Decode r.Body with
  | error e =>
    rw [ServiceA.CEPValidationHandler_decode_error ids Do r e hA] at hf
    simp only [Start_calls] at hf
    exact absurd hf (List.not_mem_nil _)
  | ok req =>
    obtain ⟨raw⟩ := req
    by_cases hv : Spec.EightASCIIDigits (TrimSpace raw)
    · obtain ⟨hdr, hc, _⟩ := ServiceA.CEPValidationHandler_valid ids Do r raw hA hv
      rw [hc, List.mem_singleton] at hf
      have hb : fwd.Body = "\x7b\"cep\":\"".toList ++ TrimSpace raw ++ "\"\x7d".toList := by
        rw [hf]
      obtain ⟨hdec, htrim, hs⟩ := forwarded_status ops env fwd (TrimSpace raw) hv hb
      have hv2 : Spec.EightASCIIDigits (TrimSpace (TrimSpace raw)) := by rw [htrim]; exact hv
      refine ⟨raw, rfl, hv, hdec, htrim, (Spec.check_false_iff _).2 hv2, ?_, ?_, ?_⟩
      · rcases hs with h | h | h <;> rw [h] <;> decide
      · rcases hs with h | h | h <;> rw [h] <;> decide
      · rw [ServiceB.WeatherHandler_valid_calls ops env fwd (TrimSpace raw) hdec hv2, htrim]
        split <;> rfl
    · rw [ServiceA.CEPValidationHandler_invalid ids Do r raw hA hv] at hf
      simp only [Start_calls] at hf
      exact absurd hf (List.not_mem_nil _)

/-- C10 at a concrete request: the Gateway forwards `{"cep":"01001000"}` for a
padded code, and the Orchestrator, fed that request, looks the code up. -/
theorem C10_orchestrator_accepts_forwarded_witness :
    ∃ hdr : Header,
      (ServiceB.WeatherHandler Scenario.ops
        (Scenario.env Scenario.saoPaulo Scenario.twentyDegrees Scenario.orchestratorIds)
        ⟨"POST".toList, "http://service-b:8081/weather".toList, hdr,
          "\x7b\"cep\":\"01001000\"\x7d".toList⟩).fx.calls.head? =
        some ⟨"GET".toList, "http://viacep.com.br/ws/01001000/json/".toList, [], []⟩ := by
  obtain ⟨hdr, hc, _⟩ := ServiceA.CEPValidationHandler_valid Scenario.gatewayIds
    (fun _ => Scenario.unreachable "Post" "http://service-b:8081/weather")
    (Scenario.post "/cep-weather" "\x7b\"cep\":\" 01001000 \"\x7d") " 01001000 ".toList
    (by decide!) (by decide)
  obtain ⟨raw, hraw, _, _, _, _, _, _, hcall⟩ := C10_orchestrator_accepts_forwarded Scenario.ops
    (Scenario.env Scenario.saoPaulo Scenario.twentyDegrees Scenario.orchestratorIds)
    Scenario.gatewayIds (fun _ => Scenario.unreachable "Post" "http://service-b:8081/weather")
    (Scenario.post "/cep-weather" "\x7b\"cep\":\" 01001000 \"\x7d") _
    (by rw [hc]; exact List.mem_singleton_self _)
  have hraw2 : raw = " 01001000 ".toList := by
    have h0 : ServiceA.model.CEPRequest.Decode
        (Scenario.post "/cep-weather" "\x7b\"cep\":\" 01001000 \"\x7d").Body =
          Except.ok ⟨" 01001000 ".toList⟩ := by decide!
    rw [h0] at hraw
    injection hraw with h1
    injection h1 with h2
    exact h2.symm
  rw [hraw2] at hcall
  exact ⟨hdr, hcall⟩

end Pipeline

/-! ## The lookups (C5, C6) -/

namespace ServiceB
open Go Otel

/-- The pair `fetchCity` returns carries `http.ErrNoLocation` exactly when the
provider answered 200 with a body that decodes and whose `erro` is non-empty. -/
theorem fetchCity_ErrNoLocation_iff (env : Env) (ctx : Context) (cep : GoString) (s : Effects) :
    (fetchCity env ctx cep s).1.2 = some GoError.ErrNoLocation ↔
      ∃ body data, env.Get (viaCEPURL cep) = Except.ok ⟨200, body⟩ ∧
        model.ViaCEPResponse.Decode body = Except.ok data ∧ data.Erro ≠ [] := by
  rw [fetchCity_result]
  cases hg : env.Get (viaCEPURL cep) with
  | error e => simp
  | ok resp =>
    obtain ⟨code, body⟩ := resp
    by_cases hc : code = 200
    · subst hc
      simp only [bne_self_eq_false, Bool.false_eq_true, if_false]
      cases hd : model.ViaCEPResponse.Decode body with
      | error e =>
        have he := decodeStruct_error _ _ _ _ hd
        subst he
        simp
        intro x hx
        rw [hd] at hx
        exact Except.noConfusion hx
      | ok data =>
        by_cases hE : data.Erro = []
        · simp [hE]
          intro x hx
          rw [hd] at hx
          injection hx with hx
          rw [← hx]
          exact hE
        · simp [hE]
          exact ⟨data, hd, hE⟩
    · have hne : (code != 200) = true := by simpa using hc
      simp [hne, hc]

/-- Past validation the status is 404 exactly when `fetchCity` returned
`http.ErrNoLocation`. -/
theorem WeatherHandler_404_iff {F : Type} (ops : Float64Ops F) (env : Env) (r : Request)
    (cep : GoString) (h : model.CEPRequest.Decode r.Body = Except.ok ⟨cep⟩)
    (hv : Spec.EightASCIIDigits (TrimSpace cep)) :
    (WeatherHandler ops env r).w.StatusCode = 404 ↔
      (fetchCity env Context.ofServer (TrimSpace cep) Effects.none).1.2 =
        some GoError.ErrNoLocation := by
  rw [WeatherHandler_valid ops env r cep h hv]
  simp only []
  split
  · split
    · rename_i h1 h2
      simpa using h2
    · rename_i h1 h2
      simp at h2
      simp [h2]
  · rename_i h1
    simp at h1
    split <;> simp [h1]

/-- C5: for a valid postal code the Orchestrator responds 404 exactly when the
postal-code provider answered 200 with a body that decodes and whose `erro`
field is a non-empty string; then `fetchCity` returns `http.ErrNoLocation`,
the body is `{"message":"can not find zipcode"}` and the only outbound call is
the city lookup, the weather provider is not called. -/
theorem C5_not_found_iff {F : Type} (ops : Float64Ops F) (env : Env) (r : Request)
    (cep : GoString) (hdec : model.CEPRequest.Decode r.Body = Except.ok ⟨cep⟩)
    (hv : Spec.EightASCIIDigits (TrimSpace cep)) :
    ((∃ body data, env.Get (viaCEPURL (TrimSpace cep)) = Except.ok ⟨200, body⟩ ∧
        model.ViaCEPResponse.Decode body = Except.ok data ∧ data.Erro ≠ []) ↔
      (WeatherHandler ops env r).w.StatusCode = 404) ∧
    ((WeatherHandler ops env r).w.StatusCode = 404 →
      (fetchCity env Context.ofServer (TrimSpace cep) Effects.none).1 =
        ([], some GoError.ErrNoLocation) ∧
      (WeatherHandler ops env r).w =
        ⟨404, "\x7b\"message\":\"can not find zipcode\"\x7d\n".toList⟩ ∧
      (WeatherHandler ops env r).fx.calls =
        [⟨"GET".toList, viaCEPURL (TrimSpace cep), [], []⟩]) := by
  have h404 := WeatherHandler_404_iff ops env r cep hdec hv
  have hiff := fetchCity_ErrNoLocation_iff env Context.ofServer (TrimSpace cep) Effects.none
  refine ⟨hiff.symm.trans h404.symm, ?_⟩
  intro hs
  have herr := h404.1 hs
  refine ⟨?_, ?_, ?_⟩
  · obtain ⟨body, data, hg, hd, hE⟩ := hiff.1 herr
    rw [fetchCity_result, hg]
    simp [hd, hE]
  · rw [WeatherHandler_valid ops env r cep hdec hv]
    simp only [herr]
    rfl
  · rw [WeatherHandler_valid_calls ops env r cep hdec hv]
    simp only [herr]
    rfl

/-- C5 at a concrete provider answer: `{"erro":"true"}` with status 200 gives
the 404, and only the city lookup is made. -/
theorem C5_not_found_witness :
    (WeatherHandler Scenario.ops
        (Scenario.env Scenario.notFound Scenario.twentyDegrees Scenario.orchestratorIds)
        (Scenario.post "/weather" "\x7b\"cep\":\"01001000\"\x7d")).w =
        ⟨404, "\x7b\"message\":\"can not find zipcode\"\x7d\n".toList⟩ ∧
      (WeatherHandler Scenario.ops
        (Scenario.env Scenario.notFound Scenario.twentyDegrees Scenario.orchestratorIds)
        (Scenario.post "/weather" "\x7b\"cep\":\"01001000\"\x7d")).fx.calls =
        [⟨"GET".toList, "http://viacep.com.br/ws/01001000/json/".toList, [], []⟩] := by
  have h := C5_not_found_iff Scenario.ops
    (Scenario.env Scenario.notFound Scenario.twentyDegrees Scenario.orchestratorIds)
    (Scenario.post "/weather" "\x7b\"cep\":\"01001000\"\x7d") "01001000".toList
    (by decide!) (by decide)
  have h404 := h.1.1 ⟨"\x7b\"erro\":\"true\"\x7d".toList, ⟨[], [], "true".toList⟩,
    by decide!, by decide!, by decide⟩
  exact ⟨(h.2 h404).2.1, (h.2 h404).2.2⟩

/-- C6 (amended): for a valid postal code, when the postal-code provider
answers 200 with a body that decodes to an empty `erro` and the city `c`, the
weather provider answers 200 with a body that decodes to the reading `t`, and
the JSON encoder accepts `t`, `t*1.8+32` and `t+273` (they are finite), the
Orchestrator responds 200 with the object whose `city` is `c`, `temp_C` is
`t`, `temp_F` is `t*1.8+32` and `temp_K` is `t+273`, the encoding of that
`WeatherResponse`; these are the values `SetTemperatures(t)` stores. -/
theorem C6_success_payload {F : Type} (ops : Float64Ops F) (env : Env) (r : Request)
    (cep c bodyC bodyW : GoString) (data : model.ViaCEPResponse) (t : F)
    (ct cf ck : GoString)
    (hdec : model.CEPRequest.Decode r.Body = Except.ok ⟨cep⟩)
    (hv : Spec.EightASCIIDigits (TrimSpace cep))
    (hC : env.Get (viaCEPURL (TrimSpace cep)) = Except.ok ⟨200, bodyC⟩)
    (hCd : model.ViaCEPResponse.Decode bodyC = Except.ok data)
    (hE : data.Erro = []) (hL : data.Localidade = c)
    (hW : env.Get (weatherURL (if env.apiKey == [] then "demo".toList else env.apiKey) c) =
      Except.ok ⟨200, bodyW⟩)
    (hWd : model.WeatherAPIResponse.Decode ops bodyW = Except.ok ⟨⟨t⟩⟩)
    (hct : ops.encode t = some ct)
    (hcf : ops.encode (ops.add (ops.mul t ops.lit_1_8) ops.lit_32) = some cf)
    (hck : ops.encode (ops.add t ops.lit_273) = some ck) :
    (WeatherHandler ops env r).w =
        ⟨200, "\x7b\"city\":".toList ++ jsonQuote c ++ ",\"temp_C\":".toList ++ ct ++
          ",\"temp_F\":".toList ++ cf ++ ",\"temp_K\":".toList ++ ck ++ "\x7d\n".toList⟩ ∧
      (WeatherHandler ops env r).w =
        ⟨200, model.WeatherResponse.Encode ops
          ⟨c, t, ops.add (ops.mul t ops.lit_1_8) ops.lit_32, ops.add t ops.lit_273⟩⟩ ∧
      ∀ tc : model.TemperatureConversion F,
        (tc.SetTemperatures ops t).Celsius = t ∧
        (tc.SetTemperatures ops t).Fahrenheit = ops.add (ops.mul t ops.lit_1_8) ops.lit_32 ∧
        (tc.SetTemperatures ops t).Kelvin = ops.add t ops.lit_273 := by
  have hcity : (fetchCity env Context.ofServer (TrimSpace cep) Effects.none).1 = (c, none) := by
    rw [fetchCity_result, hC]
    simp [hCd, hE, hL]
  have hweather : ∀ s, (fetchWeather ops env Context.ofServer c s).1 = (t, none) := by
    intro s
    rw [fetchWeather_result, hW]
    simp [hWd]
  have hw : (WeatherHandler ops env r).w =
      ⟨200, model.WeatherResponse.Encode ops
        ⟨c, t, ops.add (ops.mul t ops.lit_1_8) ops.lit_32, ops.add t ops.lit_273⟩⟩ := by
    rw [WeatherHandler_valid ops env r cep hdec hv]
    simp only [hcity, hweather]
    rfl
  refine ⟨?_, hw, fun tc => ⟨rfl, rfl, rfl⟩⟩
  rw [hw]
  unfold model.WeatherResponse.Encode
  simp only [hct, hcf, hck]

/-- C6 at the specification's scenario, in binary64: the code `01001000`, the
city `São Paulo` and the reading `20` give the body with 20, 68 and 293. -/
theorem C6_success_payload_witness :
    (WeatherHandler Scenario.ops
        (Scenario.env Scenario.saoPaulo Scenario.twentyDegrees Scenario.orchestratorIds)
        (Scenario.post "/weather" "\x7b\"cep\":\"01001000\"\x7d")).w =
        ⟨200, "\x7b\"city\":\"São Paulo\",\"temp_C\":20,\"temp_F\":68,\"temp_K\":293\x7d\n".toList⟩ ∧
      Binary64.ParseFloat "20".toList = some (Binary64.Float64.finite false 5629499534213120 (-48)) ∧
      Binary64.add (Binary64.mul (Binary64.Float64.finite false 5629499534213120 (-48))
        Scenario.ops.lit_1_8) Scenario.ops.lit_32 = Binary64.Float64.finite false 4785074604081152 (-46) ∧
      Binary64.ParseFloat "68".toList = some (Binary64.Float64.finite false 4785074604081152 (-46)) ∧
      Binary64.add (Binary64.Float64.finite false 5629499534213120 (-48)) Scenario.ops.lit_273 =
        Binary64.Float64.finite false 5154510511013888 (-44) ∧
      Binary64.ParseFloat "293".toList = some (Binary64.Float64.finite false 5154510511013888 (-44)) := by
  have h := (C6_success_payload Scenario.ops
    (Scenario.env Scenario.saoPaulo Scenario.twentyDegrees Scenario.orchestratorIds)
    (Scenario.post "/weather" "\x7b\"cep\":\"01001000\"\x7d") "01001000".toList
    "São Paulo".toList
    "\x7b\"cep\":\"01001-000\",\"localidade\":\"São Paulo\",\"uf\":\"SP\"\x7d".toList
    "\x7b\"location\":\x7b\"name\":\"Sao Paulo\"\x7d,\"current\":\x7b\"temp_c\":20\x7d\x7d".toList
    ⟨"01001-000".toList, "São Paulo".toList, []⟩
    (Binary64.Float64.finite false 5629499534213120 (-48))
    "20".toList "68".toList "293".toList
    (by decide!) (by decide) (by decide!) (by decide!) rfl rfl (by decide!) (by decide!)
    (by decide!) (by decide!) (by decide!)).1
  exact ⟨h.trans (by decide!), by decide!, by decide!, by decide!, by decide!, by decide!⟩

/-- C6 as first stated, for every reading, fails at the finite reading 1e308:
the code is valid, the city resolves to `São Paulo`, the weather provider
answers 200 with `temp_c` 1e308, which the encoder would render as `1e+308`;
`t*1.8+32` overflows to +Inf, the encoder refuses it, and the Orchestrator
responds 200 with an empty body, not with a `WeatherResponse`. -/
theorem C6_reading_1e308_counterexample :
    Binary64.ParseFloat "1e308".toList =
        some (Binary64.Float64.finite false 5010420900022432 971) ∧
      Binary64.encode (Binary64.Float64.finite false 5010420900022432 971) =
        some "1e+308".toList ∧
      Binary64.add (Binary64.mul (Binary64.Float64.finite false 5010420900022432 971)
        Scenario.ops.lit_1_8) Scenario.ops.lit_32 = Binary64.Float64.inf false ∧
      Binary64.encode (Binary64.Float64.inf false) = none ∧
      model.WeatherAPIResponse.Decode Scenario.ops
        "\x7b\"current\":\x7b\"temp_c\":1e308\x7d\x7d".toList =
        Except.ok ⟨⟨Binary64.Float64.finite false 5010420900022432 971⟩⟩ ∧
      (WeatherHandler Scenario.ops
        (Scenario.env Scenario.saoPaulo
          (Scenario.status 200 "\x7b\"current\":\x7b\"temp_c\":1e308\x7d\x7d")
          Scenario.orchestratorIds)
        (Scenario.post "/weather" "\x7b\"cep\":\"01001000\"\x7d")).w = ⟨200, []⟩ := by
  refine ⟨by decide!, by decide!, by decide!, by decide!, by decide!, by decide!⟩

end ServiceB

/-! ## Providers that answer with another status than 200 (C2, C3, C4) -/

namespace ServiceB
open Go Otel

/-- C2 (what the code does): when the postal-code provider answers a valid
code with a status other than 200, `fetchCity` returns the empty city with a
nil error (`return "", err` past the check `err != nil`), so the Orchestrator
does not respond with the city-lookup 500: it goes on to call the weather
provider with an empty city. -/
theorem C2_city_non200_returns_nil_error {F : Type} (ops : Float64Ops F) (env : Env)
    (r : Request) (cep : GoString) (resp : Response)
    (hdec : model.CEPRequest.Decode r.Body = Except.ok ⟨cep⟩)
    (hv : Spec.EightASCIIDigits (TrimSpace cep))
    (hG : env.Get (viaCEPURL (TrimSpace cep)) = Except.ok resp)
    (hs : resp.StatusCode ≠ 200) :
    (fetchCity env Context.ofServer (TrimSpace cep) Effects.none).1 = ([], none) ∧
      (WeatherHandler ops env r).w ≠
        ⟨500, "\x7b\"message\":\"internal server error during city lookup\"\x7d\n".toList⟩ ∧
      (WeatherHandler ops env r).fx.calls =
        [⟨"GET".toList, viaCEPURL (TrimSpace cep), [], []⟩,
          ⟨"GET".toList,
            weatherURL (if env.apiKey == [] then "demo".toList else env.apiKey) [], [], []⟩] := by
  have hne : (resp.StatusCode != 200) = true := by simpa using hs
  have hcity : (fetchCity env Context.ofServer (TrimSpace cep) Effects.none).1 = ([], none) := by
    rw [fetchCity_result, hG]
    simp [hne]
  refine ⟨hcity, ?_, ?_⟩
  · rw [WeatherHandler_valid ops env r cep hdec hv]
    simp only [hcity]
    intro h
    split at h
    · rename_i h1
      exact absurd h1 (by decide)
    · split at h
      · have hb : encodeMessage "internal server error during weather lookup".toList =
            "\x7b\"message\":\"internal server error during city lookup\"\x7d\n".toList :=
          congrArg Response.Body h
        revert hb
        decide
      · have hb : (200 : Nat) = 500 := congrArg Response.StatusCode h
        revert hb
        decide
  · rw [WeatherHandler_valid_calls ops env r cep hdec hv, hcity]
    rfl

/-- C2 at a concrete provider answer: status 500 from the postal-code
provider, then the weather provider is asked for the empty city. -/
theorem C2_city_non200_witness :
    (fetchCity (Scenario.env (Scenario.status 500 "") Scenario.twentyDegrees
        Scenario.orchestratorIds) Context.ofServer "01001000".toList Effects.none).1 =
        ([], none) ∧
      (WeatherHandler Scenario.ops
        (Scenario.env (Scenario.status 500 "") Scenario.twentyDegrees Scenario.orchestratorIds)
        (Scenario.post "/weather" "\x7b\"cep\":\"01001000\"\x7d")).fx.calls =
        [⟨"GET".toList, "http://viacep.com.br/ws/01001000/json/".toList, [], []⟩,
          ⟨"GET".toList, "http://api.weatherapi.com/v1/current.json?key=demo&q=".toList,
            [], []⟩] ∧
      (WeatherHandler Scenario.ops
        (Scenario.env (Scenario.status 500 "") Scenario.twentyDegrees Scenario.orchestratorIds)
        (Scenario.post "/weather" "\x7b\"cep\":\"01001000\"\x7d")).w =
        ⟨200, "\x7b\"city\":\"\",\"temp_C\":20,\"temp_F\":68,\"temp_K\":293\x7d\n".toList⟩ := by
  have h := C2_city_non200_returns_nil_error Scenario.ops
    (Scenario.env (Scenario.status 500 "") Scenario.twentyDegrees Scenario.orchestratorIds)
    (Scenario.post "/weather" "\x7b\"cep\":\"01001000\"\x7d") "01001000".toList ⟨500, []⟩
    (by decide!) (by decide) (by decide!) (by decide)
  exact ⟨h.1, h.2.2, by decide!⟩

/-- C3 (what the code does): once the city is resolved, a transport failure of
the weather call and a 200 answer whose body fails to decode each give the
weather-lookup 500; an answer with a status other than 200 does not:
`fetchWeather` returns 0 with a nil error and the Orchestrator responds 200
with the reading 0. -/
theorem C3_weather_failures {F : Type} (ops : Float64Ops F) (env : Env) (r : Request)
    (cep city : GoString)
    (hdec : model.CEPRequest.Decode r.Body = Except.ok ⟨cep⟩)
    (hv : Spec.EightASCIIDigits (TrimSpace cep))
    (hcity : (fetchCity env Context.ofServer (TrimSpace cep) Effects.none).1 = (city, none)) :
    ((∃ e, env.Get (weatherURL (if env.apiKey == [] then "demo".toList else env.apiKey) city) =
        Except.error e) →
      (WeatherHandler ops env r).w =
        ⟨500, "\x7b\"message\":\"internal server error during weather lookup\"\x7d\n".toList⟩) ∧
    ((∃ body e, env.Get (weatherURL (if env.apiKey == [] then "demo".toList else env.apiKey) city) =
        Except.ok ⟨200, body⟩ ∧ model.WeatherAPIResponse.Decode ops body = Except.error e) →
      (WeatherHandler ops env r).w =
        ⟨500, "\x7b\"message\":\"internal server error during weather lookup\"\x7d\n".toList⟩) ∧
    (∀ resp, env.Get (weatherURL (if env.apiKey == [] then "demo".toList else env.apiKey) city) =
        Except.ok resp → resp.StatusCode ≠ 200 →
      (∀ s, (fetchWeather ops env Context.ofServer city s).1 = (ops.zero, none)) ∧
      (WeatherHandler ops env r).w =
        ⟨200, model.WeatherResponse.Encode ops
          ⟨city, ops.zero, ops.add (ops.mul ops.zero ops.lit_1_8) ops.lit_32,
            ops.add ops.zero ops.lit_273⟩⟩) := by
  refine ⟨?_, ?_, ?_⟩
  · rintro ⟨e, he⟩
    have hw : ∀ s, (fetchWeather ops env Context.ofServer city s).1 =
        (ops.zero, some (GoError.url e)) := by
      intro s
      rw [fetchWeather_result, he]
    rw [WeatherHandler_valid ops env r cep hdec hv]
    simp only [hcity, hw]
    rfl
  · rintro ⟨body, e, hg, hd⟩
    have hw : ∀ s, (fetchWeather ops env Context.ofServer city s).1 = (ops.zero, some e) := by
      intro s
      rw [fetchWeather_result, hg]
      simp [hd]
    rw [WeatherHandler_valid ops env r cep hdec hv]
    simp only [hcity, hw]
    rfl
  · intro resp hg hs
    have hne : (resp.StatusCode != 200) = true := by simpa using hs
    have hw : ∀ s, (fetchWeather ops env Context.ofServer city s).1 = (ops.zero, none) := by
      intro s
      rw [fetchWeather_result, hg]
      simp [hne]
    refine ⟨hw, ?_⟩
    rw [WeatherHandler_valid ops env r cep hdec hv]
    simp only [hcity, hw]
    rfl

/-- C3 at concrete provider answers: an unreachable weather provider gives the
500; a 403 from it gives a 200 with the readings 0, 32 and 273. -/
theorem C3_weather_failures_witness :
    (WeatherHandler Scenario.ops
        (Scenario.env Scenario.saoPaulo (Scenario.unreachable "Get" "http://api.weatherapi.com")
          Scenario.orchestratorIds)
        (Scenario.post "/weather" "\x7b\"cep\":\"01001000\"\x7d")).w =
        ⟨500, "\x7b\"message\":\"internal server error during weather lookup\"\x7d\n".toList⟩ ∧
      (WeatherHandler Scenario.ops
        (Scenario.env Scenario.saoPaulo (Scenario.status 403 "\x7b\x7d") Scenario.orchestratorIds)
        (Scenario.post "/weather" "\x7b\"cep\":\"01001000\"\x7d")).w =
        ⟨200, "\x7b\"city\":\"São Paulo\",\"temp_C\":0,\"temp_F\":32,\"temp_K\":273\x7d\n".toList⟩ := by
  have h1 := (C3_weather_failures Scenario.ops
    (Scenario.env Scenario.saoPaulo (Scenario.unreachable "Get" "http://api.weatherapi.com")
      Scenario.orchestratorIds)
    (Scenario.post "/weather" "\x7b\"cep\":\"01001000\"\x7d") "01001000".toList
    "São Paulo".toList (by decide!) (by decide) (by decide!)).1
    ⟨⟨"Get".toList, "http://api.weatherapi.com".toList, "connection refused".toList⟩,
      by decide!⟩
  have h2 := ((C3_weather_failures Scenario.ops
    (Scenario.env Scenario.saoPaulo (Scenario.status 403 "\x7b\x7d") Scenario.orchestratorIds)
    (Scenario.post "/weather" "\x7b\"cep\":\"01001000\"\x7d") "01001000".toList
    "São Paulo".toList (by decide!) (by decide) (by decide!)).2.2
    ⟨403, "\x7b\x7d".toList⟩ (by decide!) (by decide)).2
  exact ⟨h1, h2.trans (by decide!)⟩

/-- C4 (what the code does): when both providers answer with a status other
than 200, the weather provider is still called, with the empty city, after the
failed city lookup, and the Orchestrator writes a 200 whose payload holds the
empty city and the reading 0. -/
theorem C4_steps_run_past_failed_lookups {F : Type} (ops : Float64Ops F) (env : Env)
    (r : Request) (cep : GoString) (respC respW : Response)
    (hdec : model.CEPRequest.Decode r.Body = Except.ok ⟨cep⟩)
    (hv : Spec.EightASCIIDigits (TrimSpace cep))
    (hC : env.Get (viaCEPURL (TrimSpace cep)) = Except.ok respC)
    (hCs : respC.StatusCode ≠ 200)
    (hW : env.Get (weatherURL (if env.apiKey == [] then "demo".toList else env.apiKey) []) =
      Except.ok respW)
    (hWs : respW.StatusCode ≠ 200) :
    (WeatherHandler ops env r).fx.calls =
        [⟨"GET".toList, viaCEPURL (TrimSpace cep), [], []⟩,
          ⟨"GET".toList,
            weatherURL (if env.apiKey == [] then "demo".toList else env.apiKey) [], [], []⟩] ∧
      (WeatherHandler ops env r).w =
        ⟨200, model.WeatherResponse.Encode ops
          ⟨[], ops.zero, ops.add (ops.mul ops.zero ops.lit_1_8) ops.lit_32,
            ops.add ops.zero ops.lit_273⟩⟩ := by
  have hneC : (respC.StatusCode != 200) = true := by simpa using hCs
  have hneW : (respW.StatusCode != 200) = true := by simpa using hWs
  have hcity : (fetchCity env Context.ofServer (TrimSpace cep) Effects.none).1 = ([], none) := by
    rw [fetchCity_result, hC]
    simp [hneC]
  have hw : ∀ s, (fetchWeather ops env Context.ofServer [] s).1 = (ops.zero, none) := by
    intro s
    rw [fetchWeather_result, hW]
    simp [hneW]
  refine ⟨?_, ?_⟩
  · rw [WeatherHandler_valid_calls ops env r cep hdec hv, hcity]
    rfl
  · rw [WeatherHandler_valid ops env r cep hdec hv]
    simp only [hcity, hw]
    rfl

/-- C4 at concrete provider answers: a 500 from the postal-code provider and
a 400 from the weather provider give two calls and a 200. -/
theorem C4_steps_run_past_failed_lookups_witness :
    (WeatherHandler Scenario.ops
        (Scenario.env (Scenario.status 500 "") (Scenario.status 400 "\x7b\x7d")
          Scenario.orchestratorIds)
        (Scenario.post "/weather" "\x7b\"cep\":\"01001000\"\x7d")).fx.calls =
        [⟨"GET".toList, "http://viacep.com.br/ws/01001000/json/".toList, [], []⟩,
          ⟨"GET".toList, "http://api.weatherapi.com/v1/current.json?key=demo&q=".toList,
            [], []⟩] ∧
      (WeatherHandler Scenario.ops
        (Scenario.env (Scenario.status 500 "") (Scenario.status 400 "\x7b\x7d")
          Scenario.orchestratorIds)
        (Scenario.post "/weather" "\x7b\"cep\":\"01001000\"\x7d")).w =
        ⟨200, "\x7b\"city\":\"\",\"temp_C\":0,\"temp_F\":32,\"temp_K\":273\x7d\n".toList⟩ := by
  have h := C4_steps_run_past_failed_lookups Scenario.ops
    (Scenario.env (Scenario.status 500 "") (Scenario.status 400 "\x7b\x7d")
      Scenario.orchestratorIds)
    (Scenario.post "/weather" "\x7b\"cep\":\"01001000\"\x7d") "01001000".toList
    ⟨500, []⟩ ⟨400, "\x7b\x7d".toList⟩
    (by decide!) (by decide) (by decide!) (by decide) (by decide!) (by decide)
  exact ⟨h.1, h.2.trans (by decide!)⟩

end ServiceB

/-! ## Trace context across the service boundary (C9) -/

namespace Otel
open Go

/-- A span started from the context of a bare handler is a root: its parent
is the zero span context. -/
theorem Start_ofServer_roots (ids : Nat → Nat) (name : GoString) (s : Effects)
    (hs : ∀ sp ∈ s.spans, sp.parent = ⟨0, 0, false⟩) :
    ∀ sp ∈ (Start ids Context.ofServer name s).2.spans, sp.parent = ⟨0, 0, false⟩ := by
  intro sp hsp
  unfold Start at hsp
  simp only [] at hsp
  split at hsp
  · rename_i hvalid
    exact absurd hvalid (by decide)
  · simp only [List.mem_append, List.mem_singleton] at hsp
    rcases hsp with h | h
    · exact hs sp h
    · rw [h]
      rfl

end Otel

namespace Pipeline
open Go Otel

/-- Every span the Orchestrator starts is a root span. -/
theorem WeatherHandler_spans_are_roots {F : Type} (ops : Float64Ops F) (env : ServiceB.Env)
    (r : Request) :
    ∀ sp ∈ (ServiceB.WeatherHandler ops env r).fx.spans, sp.parent = ⟨0, 0, false⟩ := by
  have h0 : ∀ sp ∈ Effects.none.spans, sp.parent = (⟨0, 0, false⟩ : SpanContext) := by
    intro sp hsp
    exact absurd hsp (List.not_mem_nil _)
  have hc : ∀ sp ∈ (ServiceB.fetchCity env Context.ofServer
      (TrimSpace (match ServiceB.model.CEPRequest.Decode r.Body with
        | Except.ok q => q.CEP
        | Except.error _ => [])) Effects.none).2.spans, sp.parent = ⟨0, 0, false⟩ := by
    rw [ServiceB.fetchCity_effects]
    exact Start_ofServer_roots _ _ _ h0
  cases hd : ServiceB.model.CEPRequest.Decode r.Body with
  | error e =>
    rw [ServiceB.WeatherHandler_decode_error ops env r e hd]
    exact h0
  | ok req =>
    obtain ⟨cep⟩ := req
    rw [hd] at hc
    by_cases hv : Spec.EightASCIIDigits (TrimSpace cep)
    · have hw : ∀ city, ∀ sp ∈ (ServiceB.fetchWeather ops env Context.ofServer city
          (ServiceB.fetchCity env Context.ofServer (TrimSpace cep) Effects.none).2).2.spans,
          sp.parent = ⟨0, 0, false⟩ := by
        intro city
        rw [ServiceB.fetchWeather_effects]
        exact Start_ofServer_roots _ _ _ hc
      rw [ServiceB.WeatherHandler_valid ops env r cep hd hv]
      simp only []
      split
      · split <;> exact hc
      · split
        · exact hw _
        · exact Start_ofServer_roots _ _ _ (hw _)
    · rw [ServiceB.WeatherHandler_invalid ops env r cep hd hv]
      exact h0

/-- C9 (what the code does): the Gateway injects its span context as the
`traceparent` header of the request it sends, but the Orchestrator never reads
the inbound headers: its run is the same under any headers, every span it
starts is a root span, and on the specification's scenario its three spans
carry three fresh trace ids (0xB1, 0xB3, 0xB5), none the Gateway's (0xA1). -/
theorem C9_trace_context_not_extracted :
    (∀ (F : Type) (ops : Float64Ops F) (env : ServiceB.Env) (r : Request) (h : Header),
      ServiceB.WeatherHandler ops env { r with Header := h } =
        ServiceB.WeatherHandler ops env r) ∧
    (∀ (F : Type) (ops : Float64Ops F) (env : ServiceB.Env) (r : Request),
      ∀ sp ∈ (ServiceB.WeatherHandler ops env r).fx.spans, sp.parent = ⟨0, 0, false⟩) ∧
    (ServiceA.CEPValidationHandler Scenario.gatewayIds
      (orchestratorDo Scenario.ops
        (Scenario.env Scenario.saoPaulo Scenario.twentyDegrees Scenario.orchestratorIds))
      (Scenario.post "/cep-weather" "\x7b\"cep\":\"01001000\"\x7d")).fx.spans.map
        (fun sp => (sp.Name, sp.sc.TraceID)) =
      [("CEPValidationHandler".toList, 0xA1), ("call-service-b".toList, 0xA1)] ∧
    (ServiceA.CEPValidationHandler Scenario.gatewayIds
      (orchestratorDo Scenario.ops
        (Scenario.env Scenario.saoPaulo Scenario.twentyDegrees Scenario.orchestratorIds))
      (Scenario.post "/cep-weather" "\x7b\"cep\":\"01001000\"\x7d")).fx.calls.map
        (fun q => q.Header.Get "Traceparent".toList) =
      ["00-000000000000000000000000000000a1-00000000000000a3-01".toList] ∧
    (∀ fwd ∈ (ServiceA.CEPValidationHandler Scenario.gatewayIds
      (orchestratorDo Scenario.ops
        (Scenario.env Scenario.saoPaulo Scenario.twentyDegrees Scenario.orchestratorIds))
      (Scenario.post "/cep-weather" "\x7b\"cep\":\"01001000\"\x7d")).fx.calls,
      (ServiceB.WeatherHandler Scenario.ops
        (Scenario.env Scenario.saoPaulo Scenario.twentyDegrees Scenario.orchestratorIds)
        fwd).fx.spans.map (fun sp => (sp.Name, sp.sc.TraceID, sp.parent.TraceID)) =
      [("fetch-city-via-viacep".toList, 0xB1, 0), ("fetch-weather-api".toList, 0xB3, 0),
        ("temperature-conversion".toList, 0xB5, 0)]) := by
  refine ⟨fun _ _ _ _ _ => rfl, fun F ops env r => WeatherHandler_spans_are_roots ops env r,
    by decide!, by decide!, by decide!⟩

end Pipeline
